import Mathlib

/-!
Verification development for the MigrationsPj-Django library-catalog
application.  The definitions below are a shallow embedding of the
permission-gated library-ownership workflow: the data model of
`migrationsdb/models.py`, the access-control decorators of
`decorators.py`, the ownership-transfer views and the external-import
view of `migrationsdb/views.py`, and the ISBN picker of
`migrationsdb/services/openlibrary_service.py`.  The database is an
explicit in-memory state threaded through each operation; Django's
implicit per-statement commit is modelled by returning the state as it
stands when an operation aborts.
-/

namespace MigrationsPj

/-- Calendar date, standing for Python `datetime.date` (year, month, day). -/
structure SimpleDate where
  year : Int
  month : Nat
  day : Nat
deriving DecidableEq, Repr

/-- `migrationsdb.models.Author`: first/last name, birth date, nationality. -/
structure Author where
  id : Nat
  first_name : String
  last_name : String
  birth_date : SimpleDate
  nationality : String
deriving DecidableEq, Repr

/-- `migrationsdb.models.Genre`: unique name plus description. -/
structure Genre where
  id : Nat
  name : String
  description : String
deriving DecidableEq, Repr

/-- `migrationsdb.models.Book`: title, author FK, nullable owner FK,
publication date, nullable ISBN, page count, many-to-many genre ids. -/
structure Book where
  id : Nat
  title : String
  author : Nat
  owner : Option Nat
  published_date : SimpleDate
  isbn : Option String
  pages : Int
  genres : List Nat
deriving DecidableEq, Repr

/-- The relational store: `migrationsdb.models.User` rows are identified by
their ids, plus the author/genre/book tables and the auto-increment
counters backing the `BigAutoField` primary keys. -/
structure Db where
  users : List Nat
  authors : List Author
  genres : List Genre
  books : List Book
  nextAuthorId : Nat
  nextGenreId : Nat
  nextBookId : Nat
deriving DecidableEq, Repr

/-- `Book.objects.filter(id=book_id).first()` — primary-key lookup. -/
def getBook (db : Db) (bookId : Nat) : Option Book :=
  db.books.find? (fun b => b.id == bookId)

/-- `book.save()` on an existing row: replace the row with the same primary
key, leaving every other row untouched. -/
def saveBook (db : Db) (b : Book) : Db :=
  { db with books := db.books.map (fun x => if x.id == b.id then b else x) }

/-- Well-formedness of the book table: primary keys are unique. -/
def BooksWF (db : Db) : Prop :=
  (db.books.map Book.id).Nodup

instance (db : Db) : Decidable (BooksWF db) :=
  inferInstanceAs (Decidable ((db.books.map Book.id).Nodup))

/-! ### String helpers mirroring the Python primitives used by the views

Python strings are sequences of code points, so each primitive is
modelled on the code-point list `String.data` (Python `len` and slicing
count code points exactly like `List.length`/`List.take`). -/

/-- Python `s.replace("-", "")`: replacing by the empty string deletes
every hyphen. -/
def pyRemoveHyphens (s : String) : String :=
  ⟨s.data.filter (fun c => c ≠ '-')⟩

/-- Python `s.upper()` (candidates here are ASCII ISBN strings). -/
def pyUpper (s : String) : String :=
  ⟨s.data.map Char.toUpper⟩

/-- Python `s.lower()` (Django `iexact`/`icontains` lowercasing). -/
def pyLower (s : String) : String :=
  ⟨s.data.map Char.toLower⟩

/-- Python `s.strip()`: drop leading and trailing whitespace. -/
def pyStrip (s : String) : String :=
  ⟨((s.data.dropWhile Char.isWhitespace).reverse.dropWhile Char.isWhitespace).reverse⟩

/-- Python `s[:n]`. -/
def pyTake (s : String) (n : Nat) : String :=
  ⟨s.data.take n⟩

/-- Python `len(s)`. -/
def pyLen (s : String) : Nat :=
  s.data.length

/-- Python `s.isdigit()` (ASCII): non-empty and all digits. -/
def isDigitStr (s : String) : Bool :=
  !s.data.isEmpty && s.data.all Char.isDigit

/-- Membership of `pat` as a contiguous run inside `l` (Python `in` on
strings, used to model Django's `icontains` after lowercasing). -/
def containsSub (pat : List Char) : List Char → Bool
  | [] => pat.isEmpty
  | c :: rest => List.isPrefixOf pat (c :: rest) || containsSub pat rest

/-- Django `icontains`: case-insensitive substring test. -/
def containsCI (haystack needle : String) : Bool :=
  containsSub (pyLower needle).data (pyLower haystack).data

/-- Worker for Python `s.split()`: walk the characters, flushing the
accumulated word at each whitespace run, producing no empty pieces. -/
def splitWsAux : List Char → List Char → List String
  | [], acc => if acc.isEmpty then [] else [(⟨acc.reverse⟩ : String)]
  | c :: rest, acc =>
    if c.isWhitespace then
      (if acc.isEmpty then [] else [(⟨acc.reverse⟩ : String)]) ++ splitWsAux rest []
    else
      splitWsAux rest (c :: acc)

/-- Python `s.split()` with no separator: split on whitespace runs and
drop the empty pieces. -/
def pySplit (s : String) : List String :=
  splitWsAux s.data []

/-- Last element of a token list (Python `parts[-1]`), `""` on empty. -/
def lastTok : List String → String
  | [] => ""
  | [p] => p
  | _ :: q :: rest => lastTok (q :: rest)

/-- Python `" ".join(parts)`. -/
def joinSpace : List String → String
  | [] => ""
  | [p] => p
  | p :: q :: rest => p ++ " " ++ joinSpace (q :: rest)

/-! ### `openlibrary_service._pick_isbn` -/

/-- The candidate normalisation of `_pick_isbn`:
`str(v).replace("-", "").upper().strip()`. -/
def normCand (v : String) : String :=
  pyStrip (pyUpper (pyRemoveHyphens v))

/-- A normalised candidate accepted by the first loop of `_pick_isbn`:
13 characters, all numeric (`len(s) == 13 and s.isdigit()`). -/
def valid13 (s : String) : Bool :=
  pyLen s == 13 && isDigitStr s

/-- A normalised candidate accepted by the second loop of `_pick_isbn`:
`len(s) == 10 and s[:-1].isdigit() and (s[-1].isdigit() or s[-1] == "X")`. -/
def valid10 (s : String) : Bool :=
  pyLen s == 10 && isDigitStr ⟨s.data.dropLast⟩ &&
    (let c := s.data.getLastD (Char.ofNat 0)
     c.isDigit || c == 'X')

/-- First loop of `_pick_isbn`: return the first candidate whose
normalisation is a 13-digit code. -/
def pickIsbn13 : List String → Option String
  | [] => none
  | v :: rest =>
    let s := normCand v
    if valid13 s then some s else pickIsbn13 rest

/-- Second loop of `_pick_isbn`: return the first candidate whose
normalisation is a valid 10-character code. -/
def pickIsbn10 : List String → Option String
  | [] => none
  | v :: rest =>
    let s := normCand v
    if valid10 s then some s else pickIsbn10 rest

/-- `openlibrary_service._pick_isbn`: prefer an ISBN-13, then an ISBN-10,
else `None`. -/
def pick_isbn (isbns : List String) : Option String :=
  match pickIsbn13 isbns with
  | some s => some s
  | none => pickIsbn10 isbns

/-! ### `views._split_author` -/

/-- The `match` on the token list inside `_split_author`. -/
def splitAuthorParts : List String → String × String
  | [] => ("Desconocido", "Autor")
  | [p] => (p, "")
  | p :: q :: rest => (lastTok (p :: q :: rest), joinSpace (List.dropLast (p :: q :: rest)))

/-- `views._split_author`: `(full_name or "").strip().split()`, then return
`("Desconocido", "Autor")` for no tokens, `(token, "")` for a single token,
and `(last token, join of the rest)` otherwise. -/
def split_author (full_name : String) : String × String :=
  splitAuthorParts (pySplit (pyStrip full_name))

/-! ### `decorators.library_access_required` -/

/-- The acting authenticated identity (`request.user`): resolved permission
codenames, group names, and the reverse one-to-one link to a library
`User` row when one exists (`request.user.user`). -/
structure Actor where
  perms : List String
  groups : List String
  linked : Option Nat
deriving DecidableEq, Repr

/-- Outcome of a decorated view: the wrapped view ran, the request was
redirected home with a denial message, or the `User` lookup 404ed. -/
inductive AccessOutcome where
  | granted
  | deniedRedirect
  | notFound
deriving DecidableEq, Repr

/-- `decorators.library_access_required`: 404 unless the target `User`
exists; then run the view when the actor has the `view_all_libraries`
permission or is in `Administradores`/`Bibliotecarios`; then run the view
when the actor's linked library user is the target; else redirect home. -/
def library_access_required (db : Db) (actor : Actor) (user_id : Nat) : AccessOutcome :=
  if db.users.contains user_id then
    if actor.perms.contains "migrationsdb.view_all_libraries"
        || actor.groups.contains "Administradores"
        || actor.groups.contains "Bibliotecarios" then
      .granted
    else if actor.linked == some user_id then
      .granted
    else
      .deniedRedirect
  else
    .notFound

/-- Modelled from the spec (`can_access_library`, §4.1): true when the actor
holds the global view-all capability, or belongs to the Administrator or
Librarian role, or the actor's own linked User equals the target. -/
def can_access_library_spec (actor : Actor) (target : Nat) : Bool :=
  actor.perms.contains "migrationsdb.view_all_libraries"
    || actor.groups.contains "Administradores"
    || actor.groups.contains "Bibliotecarios"
    || actor.linked == some target

/-- Permissions granted to the `Lectores` group by
`setup_initial_groups.py` (view-only, no `view_all_libraries`). -/
def lectoresPerms : List String :=
  ["migrationsdb.view_book", "migrationsdb.view_author", "migrationsdb.view_genre"]

/-! ### `views.add_books_to_library` and `views.remove_books_from_library`

The POST loops of the two ownership-transfer views.  Neither view is
wrapped in `transaction.atomic`, so each `book.save()` commits on its
own: when `get_object_or_404` raises midway through the list, the state
accumulated so far is what remains committed.  An aborted run is
reported as `none` in the second component, with the committed state in
the first. -/

/-- The POST loop of `add_books_to_library`: for each selected id, 404 if
the book does not exist; re-check `book.owner is None` and assign the
target user on success, otherwise record the title as no longer
available.  Accumulates the committed state, the `books_added` counter
and the `books_not_available` title list. -/
def addBooksLoop (user : Nat) : List Nat → Db → Nat → List String →
    Db × Option (Nat × List String)
  | [], db, added, notAvail => (db, some (added, notAvail))
  | bid :: rest, db, added, notAvail =>
    match getBook db bid with
    | none => (db, none)
    | some book =>
      if book.owner = none then
        addBooksLoop user rest (saveBook db { book with owner := some user }) (added + 1) notAvail
      else
        addBooksLoop user rest db added (notAvail ++ [book.title])

/-- `views.add_books_to_library` (POST branch): process the selected book
ids in order; returns the committed state and, on success, the count of
books added plus the titles reported as no longer available (`none` when
a missing id raised `Http404`). -/
def add_books_to_library (db : Db) (user : Nat) (selected : List Nat) :
    Db × Option (Nat × List String) :=
  addBooksLoop user selected db 0 []

/-- The POST loop of `remove_books_from_library`: each id is fetched by
`get_object_or_404(Book, id=book_id, owner=user)`, so a book not
currently owned by the target user raises `Http404` and aborts; matches
have their owner cleared and saved. -/
def removeBooksLoop (user : Nat) : List Nat → Db → Db × Option Unit
  | [], db => (db, some ())
  | bid :: rest, db =>
    match db.books.find? (fun b => b.id == bid && b.owner == some user) with
    | none => (db, none)
    | some book => removeBooksLoop user rest (saveBook db { book with owner := none })

/-- `views.remove_books_from_library` (POST branch): clear ownership of
each selected id filtered by `owner=user`; `none` when some id did not
match (Http404), with the state committed so far. -/
def remove_books_from_library (db : Db) (user : Nat) (selected : List Nat) :
    Db × Option Unit :=
  removeBooksLoop user selected db

/-! ### `views.create_book` and `views.update_book` -/

/-- The cleaned data of a valid `BookForm` submission; the form's `Meta`
exposes `owner` along with every other book field. -/
structure BookFormData where
  title : String
  author : Nat
  owner : Option Nat
  published_date : SimpleDate
  isbn : Option String
  pages : Int
  genres : List Nat
deriving DecidableEq, Repr

/-- `views.create_book` (valid POST): `form.save(commit=False)`, force
`book.owner = None`, save, then `save_m2m`.  Returns the new state and
the created book's id. -/
def create_book (db : Db) (form : BookFormData) : Db × Nat :=
  let bid := db.nextBookId
  let b : Book :=
    { id := bid, title := form.title, author := form.author, owner := none,
      published_date := form.published_date, isbn := form.isbn,
      pages := form.pages, genres := form.genres.dedup }
  ({ db with books := db.books ++ [b], nextBookId := bid + 1 }, bid)

/-- `views.update_book` (valid POST): fetch the book by id (404 when
absent) and save the form over it, every field included — the `owner`
field among them. -/
def update_book (db : Db) (bookId : Nat) (form : BookFormData) : Option Db :=
  match getBook db bookId with
  | none => none
  | some _ =>
    some (saveBook db
      { id := bookId, title := form.title, author := form.author, owner := form.owner,
        published_date := form.published_date, isbn := form.isbn,
        pages := form.pages, genres := form.genres.dedup })

/-! ### `views.import_external_book` -/

/-- The normalised external record handed to the import by
`openlibrary_service` (or synthesised in the `no-isbn` branch):
`{title, authors, year, isbn, pages, subjects}`. -/
structure ExtBook where
  title : String
  authors : List String
  year : Option Int
  isbn : Option String
  pages : Option Int
  subjects : List String
deriving DecidableEq, Repr

/-- Outcome of `import_external_book`: the early error redirects, the
duplicate-found redirect, or a successful import of a fresh book row. -/
inductive ImportOutcome where
  | errorNoTitle
  | errorNotFound
  | duplicate (bookId : Nat)
  | imported (bookId : Nat)
deriving DecidableEq, Repr

/-- `Author.objects.get_or_create(first_name=fn, last_name=ln, defaults=
{birth_date: date(1900,1,1), nationality: "N/D"})`. -/
def getOrCreateAuthor (db : Db) (fn ln : String) : Db × Nat :=
  match db.authors.find? (fun a => a.first_name == fn && a.last_name == ln) with
  | some a => (db, a.id)
  | none =>
    let aid := db.nextAuthorId
    ({ db with
        authors := db.authors ++ [⟨aid, fn, ln, ⟨1900, 1, 1⟩, "N/D"⟩],
        nextAuthorId := aid + 1 }, aid)

/-- `Genre.objects.get_or_create(name=name, defaults={"description": ""})`. -/
def getOrCreateGenre (db : Db) (name : String) : Db × Nat :=
  match db.genres.find? (fun g => g.name == name) with
  | some g => (db, g.id)
  | none =>
    let gid := db.nextGenreId
    ({ db with genres := db.genres ++ [⟨gid, name, ""⟩], nextGenreId := gid + 1 }, gid)

/-- The genre loop of the import: `for s in (book.get("subjects") or [])[:5]:
name = str(s)[:50]; get_or_create`.  Returns the ids in tag order. -/
def getOrCreateGenres (db : Db) : List String → Db × List Nat
  | [] => (db, [])
  | name :: rest =>
    let (db1, gid) := getOrCreateGenre db name
    let (db2, gids) := getOrCreateGenres db1 rest
    (db2, gid :: gids)

/-- The `author_name` computation of the import:
`(book["authors"][0] if book["authors"] else "Autor Desconocido").strip()`. -/
def importAuthorName (book : ExtBook) : String :=
  pyStrip (match book.authors with
           | a :: _ => a
           | [] => "Autor Desconocido")

/-- The dedup token: `author_name.split()[-1] if author_name else ""`. -/
def importAuthorTok (author_name : String) : String :=
  if author_name = "" then "" else lastTok (pySplit author_name)

/-- Whether a stored book matches the loose title+author duplicate filter
`title__iexact=title_clean, author__first_name__icontains=tok`. -/
def dedupTitleAuthorMatch (db : Db) (title_clean tok : String) (b : Book) : Bool :=
  pyLower b.title == pyLower title_clean &&
    (match db.authors.find? (fun a => a.id == b.author) with
     | some a => containsCI a.first_name tok
     | none => false)

/-- `isbn_clean = str(book["isbn"])[:13] if book.get("isbn") else None`
(an empty string is falsy in Python). -/
def importIsbnClean (book : ExtBook) : Option String :=
  match book.isbn with
  | some s => if s = "" then none else some (pyTake s 13)
  | none => none

/-- `title_clean = (book["title"] or "Sin título")[:200]`. -/
def importTitleClean (book : ExtBook) : String :=
  pyTake (if book.title = "" then "Sin título" else book.title) 200

/-- The duplicate lookup of the import, in order: exact `isbn_clean` match
first, then — only when that found nothing — the loose case-insensitive
title plus author-first-name-contains-token heuristic. -/
def importFindExisting (db : Db) (book : ExtBook) : Option Book :=
  let isbn_clean := importIsbnClean book
  let title_clean := importTitleClean book
  let byIsbn :=
    match isbn_clean with
    | some i => db.books.find? (fun b => b.isbn == some i)
    | none => none
  match byIsbn with
  | some b => some b
  | none =>
    db.books.find? (dedupTitleAuthorMatch db title_clean (importAuthorTok (importAuthorName book)))

/-- `pub_date = date(int(year),1,1) if isinstance(year,int) and 1 <= year
<= 9999 else date(1900,1,1)`. -/
def importPubDate (book : ExtBook) : SimpleDate :=
  match book.year with
  | some y => if 1 ≤ y ∧ y ≤ 9999 then ⟨y, 1, 1⟩ else ⟨1900, 1, 1⟩
  | none => ⟨1900, 1, 1⟩

/-- `pages = int(book["pages"]) if str(book.get("pages","")).isdigit()
else 100`: an integer renders as all digits exactly when non-negative. -/
def importPages (book : ExtBook) : Int :=
  match book.pages with
  | some p => if 0 ≤ p then p else 100
  | none => 100

/-- Resolution of the optional `owner_id` query parameter:
`User.objects.get(id=int(owner_id))` with any failure collapsing to no
owner. -/
def importOwner (db : Db) (owner_id : Option Nat) : Option Nat :=
  match owner_id with
  | some oid => if db.users.contains oid then some oid else none
  | none => none

/-- The body of `import_external_book` after the external record has been
obtained: dedup check, author and genre get-or-create, date/page
normalisation, owner resolution, then the `Book` insert and
`genres.set(genres)` (a set, hence deduplicated). -/
def importCore (db : Db) (book : ExtBook) (owner_id : Option Nat) : Db × ImportOutcome :=
  let isbn_clean := importIsbnClean book
  let title_clean := importTitleClean book
  match importFindExisting db book with
  | some existing => (db, .duplicate existing.id)
  | none =>
    let author_name := importAuthorName book
    let (ln, fn) := split_author author_name
    let (db1, authorId) :=
      getOrCreateAuthor db (if fn = "" then "N/A" else fn) (if ln = "" then "N/A" else ln)
    let (db2, genreIds) :=
      getOrCreateGenres db1 ((book.subjects.take 5).map (fun s => pyTake s 50))
    let bid := db2.nextBookId
    let new_book : Book :=
      { id := bid, title := title_clean, author := authorId,
        owner := importOwner db2 owner_id, published_date := importPubDate book,
        isbn := isbn_clean, pages := importPages book, genres := genreIds.dedup }
    ({ db2 with books := db2.books ++ [new_book], nextBookId := bid + 1 }, .imported bid)

/-- `views.import_external_book`: the `no-isbn` branch synthesises a record
from the `title`/`author` query parameters (erroring without a title);
otherwise the record comes from `ol_get_by_isbn` (modelled by the
`lookup` argument), erroring when not found; then `importCore` runs.
The view carries `@transaction.atomic`; both error redirects occur
before any write, so the state is returned unchanged there. -/
def import_external_book (db : Db) (isbn : String) (title_param author_param : String)
    (owner_id : Option Nat) (lookup : String → Option ExtBook) : Db × ImportOutcome :=
  if isbn = "no-isbn" then
    let title := pyStrip title_param
    let author := pyStrip author_param
    if title = "" then
      (db, .errorNoTitle)
    else
      importCore db
        { title := title,
          authors := if author ≠ "" then [author] else ["Autor Desconocido"],
          year := none, isbn := none, pages := none, subjects := [] }
        owner_id
  else
    match lookup isbn with
    | none => (db, .errorNotFound)
    | some book => importCore db book owner_id

/-- The `(first_name, last_name)` argument pair the import passes to the
author get-or-create: `fn or "N/A"` and `ln or "N/A"` applied to
`_split_author`'s output. -/
def importAuthorArgs (book : ExtBook) : String × String :=
  let p := split_author (importAuthorName book)
  (if p.2 = "" then "N/A" else p.2, if p.1 = "" then "N/A" else p.1)

/-- The genre names the import get-or-creates: the first five subject
tags, each truncated to 50 code points. -/
def importGenreNames (book : ExtBook) : List String :=
  (book.subjects.take 5).map (fun s => pyTake s 50)

/-- The insert branch of `importCore` spelled out: the store after the
author/genre get-or-creates and the book insert, paired with the inserted
book row.  `importCore_new` below proves this is exactly what the import
does when the duplicate lookup fails. -/
def importInsert (db : Db) (book : ExtBook) (oid : Option Nat) : Db × Book :=
  let r1 := getOrCreateAuthor db (importAuthorArgs book).1 (importAuthorArgs book).2
  let r2 := getOrCreateGenres r1.1 (importGenreNames book)
  let nb : Book :=
    { id := r2.1.nextBookId, title := importTitleClean book, author := r1.2,
      owner := importOwner r2.1 oid, published_date := importPubDate book,
      isbn := importIsbnClean book, pages := importPages book, genres := r2.2.dedup }
  ({ r2.1 with books := r2.1.books ++ [nb], nextBookId := r2.1.nextBookId + 1 }, nb)

/-! ### Concrete fixtures for the closed scenarios -/

/-- Sample author row for the concrete scenarios. -/
def authorHerbert : Author :=
  ⟨1, "Frank", "Herbert", ⟨1920, 10, 8⟩, "Estadounidense"⟩

/-- Sample unowned book (in the shared pool). -/
def bookDune : Book :=
  ⟨1, "Dune", 1, none, ⟨1965, 8, 1⟩, some "9780441013593", 412, []⟩

/-- Sample book owned by user 2. -/
def bookOwned : Book :=
  ⟨2, "Mentats of Dune", 1, some 2, ⟨1970, 1, 1⟩, none, 300, []⟩

/-- Concrete store with users 1, 2 and 7 and the two books above. -/
def dbSample : Db :=
  ⟨[1, 2, 7], [authorHerbert], [], [bookDune, bookOwned], 10, 10, 10⟩

/-- Empty store. -/
def dbEmpty : Db :=
  ⟨[], [], [], [], 0, 0, 0⟩

/-- A valid book-form submission that fills in `owner = 7`. -/
def formOwner7 : BookFormData :=
  ⟨"Dune", 1, some 7, ⟨1965, 8, 1⟩, some "9780441013593", 412, []⟩

/-- External record carrying a usable ISBN-13, for the dedup scenarios. -/
def recDune13 : ExtBook :=
  ⟨"Dune", ["Frank Herbert"], some 1965, some "9780441013593", some 412, []⟩

/-- The store after importing `recDune13` into the empty store. -/
def dbAfterImport : Db :=
  (importInsert dbEmpty recDune13 none).1

/-- External record with eight subject tags. -/
def recEightSubjects : ExtBook :=
  ⟨"Dune", ["Frank Herbert"], none, none, none,
   ["s1", "s2", "s3", "s4", "s5", "s6", "s7", "s8"]⟩

/-! ## Shared lemmas -/

/-- `saveBook` never changes the list of primary keys. -/
theorem saveBook_map_id (db : Db) (c : Book) :
    (saveBook db c).books.map Book.id = db.books.map Book.id := by
  simp only [saveBook, List.map_map]
  apply List.map_congr_left
  intro x _
  simp only [Function.comp_apply]
  by_cases h : (x.id == c.id) = true
  · rw [if_pos h]
    exact (eq_of_beq h).symm
  · rw [if_neg h]

/-- `saveBook` preserves well-formedness of the book table. -/
theorem booksWF_saveBook {db : Db} (c : Book) (hwf : BooksWF db) :
    BooksWF (saveBook db c) := by
  unfold BooksWF
  rw [saveBook_map_id]
  exact hwf

/-- A row whose id differs from the saved row is untouched by `saveBook`. -/
theorem mem_saveBook_of_id_ne {db : Db} {b : Book} (c : Book)
    (hb : b ∈ db.books) (hne : b.id ≠ c.id) : b ∈ (saveBook db c).books := by
  have : (if b.id == c.id then c else b) ∈ (saveBook db c).books :=
    List.mem_map_of_mem _ hb
  simpa [saveBook, beq_eq_false_iff_ne.mpr hne] using this

/-- The saved row is present afterwards whenever some row carried its id. -/
theorem mem_saveBook_self {db : Db} {b : Book} (c : Book)
    (hb : b ∈ db.books) (hid : b.id = c.id) : c ∈ (saveBook db c).books := by
  have : (if b.id == c.id then c else b) ∈ (saveBook db c).books :=
    List.mem_map_of_mem _ hb
  simpa [saveBook, hid] using this

/-- Every row of `saveBook db c` is either `c` or an original row. -/
theorem mem_saveBook_cases {db : Db} {c b' : Book}
    (h : b' ∈ (saveBook db c).books) : b' = c ∨ b' ∈ db.books := by
  simp only [saveBook, List.mem_map] at h
  obtain ⟨x, hx, hxe⟩ := h
  by_cases hid : (x.id == c.id) = true
  · left
    rw [← hxe]
    simp [hid]
  · right
    rw [← hxe]
    simpa [hid] using hx

/-- In a well-formed table, a predicate that pins the primary key of `b`
finds exactly `b`. -/
theorem find?_eq_of_nodup_id {l : List Book} {p : Book → Bool} {b : Book}
    (hwf : (l.map Book.id).Nodup) (hb : b ∈ l) (hpb : p b = true)
    (hid : ∀ x, p x = true → x.id = b.id) :
    l.find? p = some b := by
  induction l with
  | nil => cases hb
  | cons x xs ih =>
    have hwf' : (xs.map Book.id).Nodup := by
      simpa using (List.nodup_cons.mp (by simpa using hwf)).2
    rcases List.mem_cons.mp hb with rfl | hmem
    · exact List.find?_cons_of_pos _ hpb
    · have hbid : b.id ∈ xs.map Book.id := List.mem_map_of_mem _ hmem
      have hxnot : x.id ∉ xs.map Book.id :=
        (List.nodup_cons.mp (by simpa using hwf)).1
      have hpx : ¬ p x = true := by
        intro hpx
        exact hxnot (by rw [hid x hpx]; exact hbid)
      rw [List.find?_cons_of_neg _ hpx]
      exact ih hwf' hmem

/-- Primary-key lookup of a member row in a well-formed table. -/
theorem getBook_eq_of_mem {db : Db} {b : Book} (hwf : BooksWF db)
    (hb : b ∈ db.books) : getBook db b.id = some b := by
  apply find?_eq_of_nodup_id hwf hb
  · simp
  · intro x hx
    exact eq_of_beq hx

/-- A book id resolves exactly when it appears in the table's key list. -/
theorem getBook_isSome_iff {db : Db} {i : Nat} :
    (getBook db i).isSome ↔ i ∈ db.books.map Book.id := by
  unfold getBook
  rw [List.find?_isSome]
  constructor
  · rintro ⟨x, hx, hpx⟩
    have := eq_of_beq hpx
    subst this
    exact List.mem_map_of_mem _ hx
  · intro h
    obtain ⟨x, hx, hxe⟩ := List.mem_map.mp h
    exact ⟨x, hx, by simp [hxe]⟩

/-! ## Claim C6: ISBN extraction (`_pick_isbn`) -/

/-- A successful first loop returns a 13-digit code. -/
theorem pickIsbn13_some {l : List String} {s : String}
    (h : pickIsbn13 l = some s) : valid13 s = true := by
  induction l with
  | nil => simp [pickIsbn13] at h
  | cons v rest ih =>
    unfold pickIsbn13 at h
    by_cases hv : valid13 (normCand v) = true
    · simp only [hv, if_true] at h
      cases h
      exact hv
    · simp only [hv, if_false] at h
      exact ih h

/-- The first loop fails exactly when no candidate normalises to 13 digits. -/
theorem pickIsbn13_eq_none_iff {l : List String} :
    pickIsbn13 l = none ↔ ∀ v ∈ l, valid13 (normCand v) = false := by
  induction l with
  | nil => simp [pickIsbn13]
  | cons v rest ih =>
    unfold pickIsbn13
    by_cases hv : valid13 (normCand v) = true
    · simp [hv]
    · rw [if_neg hv, ih]
      constructor
      · intro h x hx
        rcases List.mem_cons.mp hx with rfl | hx'
        · simpa using hv
        · exact h x hx'
      · intro h x hx
        exact h x (List.mem_cons_of_mem _ hx)

/-- A successful second loop returns a valid 10-character code. -/
theorem pickIsbn10_some {l : List String} {s : String}
    (h : pickIsbn10 l = some s) : valid10 s = true := by
  induction l with
  | nil => simp [pickIsbn10] at h
  | cons v rest ih =>
    unfold pickIsbn10 at h
    by_cases hv : valid10 (normCand v) = true
    · simp only [hv, if_true] at h
      cases h
      exact hv
    · simp only [hv, if_false] at h
      exact ih h

/-- The second loop fails exactly when no candidate normalises to a valid
10-character code. -/
theorem pickIsbn10_eq_none_iff {l : List String} :
    pickIsbn10 l = none ↔ ∀ v ∈ l, valid10 (normCand v) = false := by
  induction l with
  | nil => simp [pickIsbn10]
  | cons v rest ih =>
    unfold pickIsbn10
    by_cases hv : valid10 (normCand v) = true
    · simp [hv]
    · rw [if_neg hv, ih]
      constructor
      · intro h x hx
        rcases List.mem_cons.mp hx with rfl | hx'
        · simpa using hv
        · exact h x hx'
      · intro h x hx
        exact h x (List.mem_cons_of_mem _ hx)

/-- Claim C6: `_pick_isbn` prefers a 13-character all-numeric code,
otherwise accepts a 10-character code with 9 numeric characters and a
digit-or-`X` check character, otherwise yields nothing; and on the
candidates `["978-3-16-148410-0", "3161484100"]` the 13-digit candidate
wins after hyphen removal. -/
theorem claim_C6_pick_isbn :
    (∀ l s, pick_isbn l = some s → valid13 s = true ∨ valid10 s = true) ∧
    (∀ l, (∃ v ∈ l, valid13 (normCand v) = true) →
      ∃ s, pick_isbn l = some s ∧ valid13 s = true) ∧
    (∀ l, pick_isbn l = none ↔
      ∀ v ∈ l, valid13 (normCand v) = false ∧ valid10 (normCand v) = false) ∧
    pick_isbn ["978-3-16-148410-0", "3161484100"] = some "9783161484100" := by
  refine ⟨?_, ?_, ?_, by decide⟩
  · intro l s h
    unfold pick_isbn at h
    cases h13 : pickIsbn13 l with
    | some t =>
      rw [h13] at h
      cases h
      exact Or.inl (pickIsbn13_some h13)
    | none =>
      rw [h13] at h
      exact Or.inr (pickIsbn10_some h)
  · intro l hex
    unfold pick_isbn
    cases h13 : pickIsbn13 l with
    | some t => exact ⟨t, rfl, pickIsbn13_some h13⟩
    | none =>
      obtain ⟨v, hv, hval⟩ := hex
      have := (pickIsbn13_eq_none_iff.mp h13) v hv
      rw [hval] at this
      cases this
  · intro l
    unfold pick_isbn
    cases h13 : pickIsbn13 l with
    | some t =>
      simp only [reduceCtorEq, false_iff]
      intro hall
      have := (pickIsbn13_eq_none_iff.mpr (fun v hv => (hall v hv).1))
      rw [h13] at this
      cases this
    | none =>
      rw [pickIsbn10_eq_none_iff]
      constructor
      · intro h v hv
        exact ⟨(pickIsbn13_eq_none_iff.mp h13) v hv, h v hv⟩
      · intro h v hv
        exact (h v hv).2

/-- Witness for claim C6 at the spec's concrete candidate list. -/
theorem claim_C6_pick_isbn_witness :
    ∃ s, pick_isbn ["978-3-16-148410-0", "3161484100"] = some s ∧ valid13 s = true :=
  claim_C6_pick_isbn.2.1 ["978-3-16-148410-0", "3161484100"]
    ⟨"978-3-16-148410-0", by decide, by decide⟩

/-! ## Claim C5: the library access gate -/

/-- Claim C5: `library_access_required` grants access exactly when the
actor holds `view_all_libraries`, or belongs to `Administradores` or
`Bibliotecarios`, or the actor's linked library user is the target; in
particular an Administrator or Librarian is always granted, a `Lectores`
actor (with the permissions `setup_initial_groups` gives that group) is
granted on their own library and redirected away from any other. -/
theorem claim_C5_library_access :
    (∀ db actor target, db.users.contains target = true →
      (library_access_required db actor target = .granted ↔
        can_access_library_spec actor target = true)) ∧
    (∀ db actor target, db.users.contains target = true →
      (actor.groups.contains "Administradores" = true ∨
        actor.groups.contains "Bibliotecarios" = true) →
      library_access_required db actor target = .granted) ∧
    (∀ db actor target, db.users.contains target = true →
      actor.groups = ["Lectores"] → actor.perms = lectoresPerms →
      actor.linked = some target →
      library_access_required db actor target = .granted) ∧
    (∀ db actor target, db.users.contains target = true →
      actor.groups = ["Lectores"] → actor.perms = lectoresPerms →
      actor.linked ≠ some target →
      library_access_required db actor target = .deniedRedirect) := by
  refine ⟨?_, ?_, ?_, ?_⟩
  · intro db actor target hex
    unfold library_access_required can_access_library_spec
    rw [if_pos hex]
    by_cases hglob : (actor.perms.contains "migrationsdb.view_all_libraries"
        || actor.groups.contains "Administradores"
        || actor.groups.contains "Bibliotecarios") = true
    · rw [if_pos hglob, hglob]
      simp
    · rw [if_neg hglob]
      rw [Bool.not_eq_true] at hglob
      rw [hglob]
      by_cases hown : (actor.linked == some target) = true
      · rw [if_pos hown, hown]
        simp
      · rw [if_neg hown]
        rw [Bool.not_eq_true] at hown
        rw [hown]
        simp
  · intro db actor target hex hrole
    unfold library_access_required
    rw [if_pos hex]
    have hcond : (actor.perms.contains "migrationsdb.view_all_libraries"
        || actor.groups.contains "Administradores"
        || actor.groups.contains "Bibliotecarios") = true := by
      rcases hrole with h | h
      · rw [h]
        simp
      · rw [h]
        simp
    rw [if_pos hcond]
  · intro db actor target hex hg hp hl
    unfold library_access_required
    rw [if_pos hex]
    have hglob : (actor.perms.contains "migrationsdb.view_all_libraries"
        || actor.groups.contains "Administradores"
        || actor.groups.contains "Bibliotecarios") = false := by
      rw [hg, hp]
      decide
    rw [if_neg (by rw [hglob]; exact Bool.false_ne_true), if_pos (by rw [hl]; simp)]
  · intro db actor target hex hg hp hl
    unfold library_access_required
    rw [if_pos hex]
    have hglob : (actor.perms.contains "migrationsdb.view_all_libraries"
        || actor.groups.contains "Administradores"
        || actor.groups.contains "Bibliotecarios") = false := by
      rw [hg, hp]
      decide
    have hown : ¬ (actor.linked == some target) = true := by
      intro hc
      exact hl (eq_of_beq hc)
    rw [if_neg (by rw [hglob]; exact Bool.false_ne_true), if_neg hown]

/-- Witness for claim C5: an Administrador reaches user 2's library, and a
Lectores actor linked to user 1 is granted on 1 and redirected on 2. -/
theorem claim_C5_library_access_witness :
    library_access_required dbSample ⟨[], ["Administradores"], none⟩ 2 = .granted ∧
    library_access_required dbSample ⟨lectoresPerms, ["Lectores"], some 1⟩ 1 = .granted ∧
    library_access_required dbSample ⟨lectoresPerms, ["Lectores"], some 1⟩ 2 = .deniedRedirect :=
  ⟨claim_C5_library_access.2.1 dbSample ⟨[], ["Administradores"], none⟩ 2
      (by decide) (Or.inl (by decide)),
   claim_C5_library_access.2.2.1 dbSample ⟨lectoresPerms, ["Lectores"], some 1⟩ 1
      (by decide) rfl rfl rfl,
   claim_C5_library_access.2.2.2 dbSample ⟨lectoresPerms, ["Lectores"], some 1⟩ 2
      (by decide) rfl rfl (by decide)⟩

/-! ## Frame lemmas for the import's get-or-create steps -/

/-- `getOrCreateAuthor` only touches the author table. -/
theorem getOrCreateAuthor_frame (db : Db) (fn ln : String) :
    (getOrCreateAuthor db fn ln).1.books = db.books ∧
    (getOrCreateAuthor db fn ln).1.genres = db.genres ∧
    (getOrCreateAuthor db fn ln).1.users = db.users ∧
    (getOrCreateAuthor db fn ln).1.nextBookId = db.nextBookId ∧
    (getOrCreateAuthor db fn ln).1.nextGenreId = db.nextGenreId := by
  cases hfind : db.authors.find? (fun a => a.first_name == fn && a.last_name == ln) with
  | none => simp [getOrCreateAuthor, hfind]
  | some a => simp [getOrCreateAuthor, hfind]

/-- `getOrCreateAuthor` returns the id of a row of the resulting author
table carrying exactly the requested name pair. -/
theorem getOrCreateAuthor_spec (db : Db) (fn ln : String) :
    ∃ a, a ∈ (getOrCreateAuthor db fn ln).1.authors ∧
      (getOrCreateAuthor db fn ln).2 = a.id ∧
      a.first_name = fn ∧ a.last_name = ln := by
  cases hfind : db.authors.find? (fun a => a.first_name == fn && a.last_name == ln) with
  | some a =>
    have hp := List.find?_some hfind
    have hmem := List.mem_of_find?_eq_some hfind
    simp only [Bool.and_eq_true, beq_iff_eq] at hp
    refine ⟨a, ?_, ?_, hp.1, hp.2⟩
    · simp [getOrCreateAuthor, hfind, hmem]
    · simp [getOrCreateAuthor, hfind]
  | none =>
    refine ⟨⟨db.nextAuthorId, fn, ln, ⟨1900, 1, 1⟩, "N/D"⟩, ?_, ?_, rfl, rfl⟩
    · simp [getOrCreateAuthor, hfind]
    · simp [getOrCreateAuthor, hfind]

/-- When no author row matches, `getOrCreateAuthor` appends a fresh row
with the sentinel birth date 1900-01-01 and nationality `"N/D"`. -/
theorem getOrCreateAuthor_new (db : Db) (fn ln : String)
    (h : db.authors.find? (fun a => a.first_name == fn && a.last_name == ln) = none) :
    (getOrCreateAuthor db fn ln).1.authors =
      db.authors ++ [⟨db.nextAuthorId, fn, ln, ⟨1900, 1, 1⟩, "N/D"⟩] := by
  simp [getOrCreateAuthor, h]

/-- When an author row matches, `getOrCreateAuthor` reuses it and leaves
the store untouched. -/
theorem getOrCreateAuthor_found (db : Db) (fn ln : String) (a : Author)
    (h : db.authors.find? (fun x => x.first_name == fn && x.last_name == ln) = some a) :
    getOrCreateAuthor db fn ln = (db, a.id) := by
  simp [getOrCreateAuthor, h]

/-- `getOrCreateGenre` only touches the genre table. -/
theorem getOrCreateGenre_frame (db : Db) (name : String) :
    (getOrCreateGenre db name).1.books = db.books ∧
    (getOrCreateGenre db name).1.authors = db.authors ∧
    (getOrCreateGenre db name).1.users = db.users ∧
    (getOrCreateGenre db name).1.nextBookId = db.nextBookId := by
  cases hfind : db.genres.find? (fun g => g.name == name) with
  | none => simp [getOrCreateGenre, hfind]
  | some g => simp [getOrCreateGenre, hfind]

/-- The genre loop only touches the genre table. -/
theorem getOrCreateGenres_frame (names : List String) (db : Db) :
    (getOrCreateGenres db names).1.books = db.books ∧
    (getOrCreateGenres db names).1.authors = db.authors ∧
    (getOrCreateGenres db names).1.users = db.users ∧
    (getOrCreateGenres db names).1.nextBookId = db.nextBookId := by
  induction names generalizing db with
  | nil => exact ⟨rfl, rfl, rfl, rfl⟩
  | cons name rest ih =>
    have h1 := getOrCreateGenre_frame db name
    have h2 := ih (getOrCreateGenre db name).1
    simp only [getOrCreateGenres]
    exact ⟨h2.1.trans h1.1, h2.2.1.trans h1.2.1, h2.2.2.1.trans h1.2.2.1,
      h2.2.2.2.trans h1.2.2.2⟩

/-- The genre loop returns exactly as many ids as names. -/
theorem getOrCreateGenres_length (names : List String) (db : Db) :
    (getOrCreateGenres db names).2.length = names.length := by
  induction names generalizing db with
  | nil => rfl
  | cons name rest ih =>
    simp only [getOrCreateGenres, List.length_cons]
    rw [ih]

/-- When the duplicate lookup fails, `importCore` is exactly the insert
branch `importInsert`. -/
theorem importCore_new (db : Db) (book : ExtBook) (oid : Option Nat)
    (hexist : importFindExisting db book = none) :
    importCore db book oid =
      ((importInsert db book oid).1, .imported (importInsert db book oid).2.id) := by
  unfold importCore importInsert importAuthorArgs importGenreNames
  rw [hexist]

/-- Books of a fresh import: the original table plus the inserted row. -/
theorem importInsert_books (db : Db) (book : ExtBook) (oid : Option Nat) :
    (importInsert db book oid).1.books = db.books ++ [(importInsert db book oid).2] := by
  have haf := getOrCreateAuthor_frame db (importAuthorArgs book).1 (importAuthorArgs book).2
  have hgf := getOrCreateGenres_frame (importGenreNames book)
    (getOrCreateAuthor db (importAuthorArgs book).1 (importAuthorArgs book).2).1
  simp only [importInsert]
  rw [hgf.1, haf.1]

/-- Authors of a fresh import: the author get-or-create result's table. -/
theorem importInsert_authors (db : Db) (book : ExtBook) (oid : Option Nat) :
    (importInsert db book oid).1.authors =
      (getOrCreateAuthor db (importAuthorArgs book).1 (importAuthorArgs book).2).1.authors := by
  have hgf := getOrCreateGenres_frame (importGenreNames book)
    (getOrCreateAuthor db (importAuthorArgs book).1 (importAuthorArgs book).2).1
  simp only [importInsert]
  rw [hgf.2.1]

/-- The inserted row's author id is the get-or-create result. -/
theorem importInsert_book_author (db : Db) (book : ExtBook) (oid : Option Nat) :
    (importInsert db book oid).2.author =
      (getOrCreateAuthor db (importAuthorArgs book).1 (importAuthorArgs book).2).2 := rfl

/-- The inserted row's normalised scalar fields. -/
theorem importInsert_book_fields (db : Db) (book : ExtBook) (oid : Option Nat) :
    (importInsert db book oid).2.title = importTitleClean book ∧
    (importInsert db book oid).2.published_date = importPubDate book ∧
    (importInsert db book oid).2.isbn = importIsbnClean book ∧
    (importInsert db book oid).2.pages = importPages book ∧
    (importInsert db book oid).2.genres =
      (getOrCreateGenres (getOrCreateAuthor db (importAuthorArgs book).1
        (importAuthorArgs book).2).1 (importGenreNames book)).2.dedup :=
  ⟨rfl, rfl, rfl, rfl, rfl⟩

/-- The inserted row's owner is resolved against the unchanged user table. -/
theorem importInsert_book_owner (db : Db) (book : ExtBook) (oid : Option Nat) :
    (importInsert db book oid).2.owner = importOwner db oid := by
  have haf := getOrCreateAuthor_frame db (importAuthorArgs book).1 (importAuthorArgs book).2
  have hgf := getOrCreateGenres_frame (importGenreNames book)
    (getOrCreateAuthor db (importAuthorArgs book).1 (importAuthorArgs book).2).1
  cases oid with
  | none => rfl
  | some o =>
    show importOwner _ (some o) = importOwner db (some o)
    unfold importOwner
    rw [hgf.2.2.1, haf.2.2.1]

/-! ## Claim C8: author resolution during import -/

/-- Counterexample for claim C8 as stated: importing with the
single-token author name `"Plato"` resolves an Author whose first name is
the `"N/A"` placeholder substituted by the `fn or "N/A"` coalescing in
`import_external_book`, not the empty string produced by the split. -/
theorem claim_C8_counterexample :
    (import_external_book dbEmpty "no-isbn" "Republic" "Plato" none
        (fun _ => none)).1.authors =
      [⟨0, "N/A", "Plato", ⟨1900, 1, 1⟩, "N/D"⟩] ∧ ("N/A" : String) ≠ "" := by
  constructor
  · decide
  · decide

/-- Claim C8 (amended): `_split_author` yields
`("Desconocido", "Autor")` on an empty name, `(token, "")` on a single
token and `(last token, join of the rest)` otherwise; the import then
coalesces an empty part to `"N/A"`, so a single-token author name
resolves an Author with first name `"N/A"`; a new author is created with
the sentinel birth date and nationality by exact name-pair get-or-create,
and an existing pair is reused without touching the store. -/
theorem claim_C8_author_resolution :
    (split_author "" = ("Desconocido", "Autor")) ∧
    (∀ name p, pySplit (pyStrip name) = [p] → split_author name = (p, "")) ∧
    (∀ name p q rest, pySplit (pyStrip name) = p :: q :: rest →
      split_author name = (lastTok (p :: q :: rest), joinSpace (List.dropLast (p :: q :: rest)))) ∧
    (∀ db book oid t, importFindExisting db book = none →
      pySplit (pyStrip (importAuthorName book)) = [t] → t ≠ "" →
      ∃ a nb, a ∈ (importCore db book oid).1.authors ∧
        a.first_name = "N/A" ∧ a.last_name = t ∧
        (importCore db book oid).1.books = db.books ++ [nb] ∧ nb.author = a.id) ∧
    (∀ db fn ln, db.authors.find? (fun a => a.first_name == fn && a.last_name == ln) = none →
      (getOrCreateAuthor db fn ln).1.authors =
        db.authors ++ [⟨db.nextAuthorId, fn, ln, ⟨1900, 1, 1⟩, "N/D"⟩]) ∧
    (∀ db fn ln a, db.authors.find? (fun x => x.first_name == fn && x.last_name == ln) = some a →
      getOrCreateAuthor db fn ln = (db, a.id)) := by
  refine ⟨by decide, ?_, ?_, ?_, getOrCreateAuthor_new, getOrCreateAuthor_found⟩
  · intro name p h
    unfold split_author
    rw [h]
    rfl
  · intro name p q rest h
    unfold split_author
    rw [h]
    rfl
  · intro db book oid t hexist hsplit ht
    have hsa : split_author (importAuthorName book) = (t, "") := by
      unfold split_author
      rw [hsplit]
      rfl
    have hargs : importAuthorArgs book = ("N/A", t) := by
      unfold importAuthorArgs
      rw [hsa]
      simp [ht]
    obtain ⟨a, hamem, haid, hafn, haln⟩ := getOrCreateAuthor_spec db "N/A" t
    have hcore := importCore_new db book oid hexist
    refine ⟨a, (importInsert db book oid).2, ?_, hafn, haln, ?_, ?_⟩
    · rw [hcore, importInsert_authors, hargs]
      exact hamem
    · rw [hcore]
      exact importInsert_books db book oid
    · rw [importInsert_book_author, hargs]
      exact haid

/-- Witness for claim C8's amended theorem at the single-token author
`"Plato"` on the empty store. -/
theorem claim_C8_author_resolution_witness :
    ∃ a nb, a ∈ (importCore dbEmpty
        ⟨"Republic", ["Plato"], none, none, none, []⟩ none).1.authors ∧
      a.first_name = "N/A" ∧ a.last_name = "Plato" ∧
      (importCore dbEmpty ⟨"Republic", ["Plato"], none, none, none, []⟩ none).1.books =
        dbEmpty.books ++ [nb] ∧ nb.author = a.id :=
  claim_C8_author_resolution.2.2.2.1 dbEmpty
    ⟨"Republic", ["Plato"], none, none, none, []⟩ none "Plato"
    (by decide) (by decide) (by decide)

/-! ## Claim C7: the Dune end-to-end import scenario -/

/-- Claim C7: importing `title="Dune", author="Frank Herbert"` with no
ISBN, when no stored book matches the case-insensitive title plus
author-surname heuristic, inserts exactly one new book titled `"Dune"`
with sentinel publish date 1900-01-01, sentinel page count 100, no ISBN,
no owner and zero genres, linked to a new or reused author
`("Frank", "Herbert")`. -/
theorem claim_C7_dune_import (db : Db) (lookup : String → Option ExtBook)
    (hnone : db.books.find? (dedupTitleAuthorMatch db "Dune" "Herbert") = none) :
    ∃ db' a nb,
      import_external_book db "no-isbn" "Dune" "Frank Herbert" none lookup =
        (db', .imported nb.id) ∧
      db'.books = db.books ++ [nb] ∧
      nb.title = "Dune" ∧ nb.published_date = ⟨1900, 1, 1⟩ ∧ nb.pages = 100 ∧
      nb.genres = [] ∧ nb.isbn = none ∧ nb.owner = none ∧
      a ∈ db'.authors ∧ a.first_name = "Frank" ∧ a.last_name = "Herbert" ∧
      nb.author = a.id := by
  have hexist : importFindExisting db ⟨"Dune", ["Frank Herbert"], none, none, none, []⟩ = none :=
    hnone
  have hview : import_external_book db "no-isbn" "Dune" "Frank Herbert" none lookup =
      importCore db ⟨"Dune", ["Frank Herbert"], none, none, none, []⟩ none := rfl
  have hcore := importCore_new db ⟨"Dune", ["Frank Herbert"], none, none, none, []⟩ none hexist
  have hargs : importAuthorArgs ⟨"Dune", ["Frank Herbert"], none, none, none, []⟩ =
      ("Frank", "Herbert") := by decide
  obtain ⟨a, hamem, haid, hafn, haln⟩ := getOrCreateAuthor_spec db "Frank" "Herbert"
  refine ⟨(importInsert db ⟨"Dune", ["Frank Herbert"], none, none, none, []⟩ none).1, a,
    (importInsert db ⟨"Dune", ["Frank Herbert"], none, none, none, []⟩ none).2,
    ?_, importInsert_books db _ none, rfl, rfl, rfl, rfl, rfl, rfl, ?_, hafn, haln, ?_⟩
  · rw [hview, hcore]
  · rw [importInsert_authors db _ none, hargs]
    exact hamem
  · rw [importInsert_book_author db _ none, hargs]
    exact haid

/-- Witness for claim C7 on the empty store. -/
theorem claim_C7_dune_import_witness :
    ∃ db' a nb,
      import_external_book dbEmpty "no-isbn" "Dune" "Frank Herbert" none
        (fun _ => none) = (db', .imported nb.id) ∧
      db'.books = dbEmpty.books ++ [nb] ∧
      nb.title = "Dune" ∧ nb.published_date = ⟨1900, 1, 1⟩ ∧ nb.pages = 100 ∧
      nb.genres = [] ∧ nb.isbn = none ∧ nb.owner = none ∧
      a ∈ db'.authors ∧ a.first_name = "Frank" ∧ a.last_name = "Herbert" ∧
      nb.author = a.id :=
  claim_C7_dune_import dbEmpty (fun _ => none) (by decide)

/-! ## Claim C10: books created through the create-book view -/

/-- Counterexample for claim C10 as stated: a book can acquire an owner
outside the transfer workflow and the import — `update_book` saves the
form's `owner` field, here assigning user 7 to the previously unowned
book 1. -/
theorem claim_C10_counterexample :
    update_book dbSample 1 formOwner7 =
      some (saveBook dbSample { bookDune with owner := some 7 }) ∧
    getBook (saveBook dbSample { bookDune with owner := some 7 }) 1 =
      some { bookDune with owner := some 7 } := by
  constructor
  · decide
  · decide

/-- Claim C10 (amended): `create_book` stores the new book with
`owner = None` regardless of the owner value carried by the form, so a
created book starts in the unowned pool; it can later acquire an owner
not only through the ownership-transfer workflow but also through
`update_book`, whose form exposes the `owner` field. -/
theorem claim_C10_create_book_unowned :
    (∀ db form, ∃ b, (create_book db form).1.books = db.books ++ [b] ∧
      b.owner = none ∧ b.title = form.title ∧ b.author = form.author ∧
      b.published_date = form.published_date ∧ b.isbn = form.isbn ∧
      b.pages = form.pages ∧ (create_book db form).2 = b.id) ∧
    (∀ db bookId form db', update_book db bookId form = some db' →
      ({ id := bookId, title := form.title, author := form.author, owner := form.owner,
         published_date := form.published_date, isbn := form.isbn, pages := form.pages,
         genres := form.genres.dedup } : Book) ∈ db'.books) := by
  constructor
  · intro db form
    exact ⟨_, rfl, rfl, rfl, rfl, rfl, rfl, rfl, rfl⟩
  · intro db bookId form db' hupd
    unfold update_book at hupd
    cases hget : getBook db bookId with
    | none =>
      rw [hget] at hupd
      cases hupd
    | some b0 =>
      rw [hget] at hupd
      cases hupd
      have hget' : db.books.find? (fun b => b.id == bookId) = some b0 := hget
      have hb0 : b0 ∈ db.books := List.mem_of_find?_eq_some hget'
      have hid : b0.id = bookId := by simpa using List.find?_some hget'
      exact mem_saveBook_self _ hb0 hid

/-- Witness for claim C10's amended theorem: creating a book over
`dbSample` with an owner-bearing form yields an unowned row, and the
update view then assigns owner 7 to book 1. -/
theorem claim_C10_create_book_unowned_witness :
    (∃ b, (create_book dbSample formOwner7).1.books = dbSample.books ++ [b] ∧
      b.owner = none ∧ b.title = formOwner7.title ∧ b.author = formOwner7.author ∧
      b.published_date = formOwner7.published_date ∧ b.isbn = formOwner7.isbn ∧
      b.pages = formOwner7.pages ∧ (create_book dbSample formOwner7).2 = b.id) ∧
    ({ id := 1, title := formOwner7.title, author := formOwner7.author,
       owner := formOwner7.owner, published_date := formOwner7.published_date,
       isbn := formOwner7.isbn, pages := formOwner7.pages,
       genres := formOwner7.genres.dedup } : Book) ∈
      (saveBook dbSample { bookDune with owner := some 7 }).books :=
  ⟨claim_C10_create_book_unowned.1 dbSample formOwner7,
   claim_C10_create_book_unowned.2 dbSample 1 formOwner7
     (saveBook dbSample { bookDune with owner := some 7 }) (by decide)⟩

/-! ## Claim C4: import deduplication order and idempotence -/

/-- Claim C4: the import's duplicate check runs in order — an exact match
on the cleaned ISBN first; the loose case-insensitive title plus
author-token lookup only when the ISBN lookup found nothing (or no usable
ISBN exists) — a hit in either is a no-op returning the existing row; and
an ISBN-bearing record imported twice stores exactly one book, the second
call writing nothing. -/
theorem claim_C4_import_dedup :
    (∀ db book oid i b, importIsbnClean book = some i →
      db.books.find? (fun x => x.isbn == some i) = some b →
      importCore db book oid = (db, .duplicate b.id)) ∧
    (∀ db book oid b, importIsbnClean book = none →
      db.books.find? (dedupTitleAuthorMatch db (importTitleClean book)
        (importAuthorTok (importAuthorName book))) = some b →
      importCore db book oid = (db, .duplicate b.id)) ∧
    (∀ db book oid i b, importIsbnClean book = some i →
      db.books.find? (fun x => x.isbn == some i) = none →
      db.books.find? (dedupTitleAuthorMatch db (importTitleClean book)
        (importAuthorTok (importAuthorName book))) = some b →
      importCore db book oid = (db, .duplicate b.id)) ∧
    (∀ db book oid oid2 i db1 bid, importIsbnClean book = some i →
      importCore db book oid = (db1, .imported bid) →
      importCore db1 book oid2 = (db1, .duplicate bid)) := by
  refine ⟨?_, ?_, ?_, ?_⟩
  · intro db book oid i b hi hfind
    have hfe : importFindExisting db book = some b := by
      simp only [importFindExisting, hi, hfind]
    simp only [importCore, hfe]
  · intro db book oid b hi hfind
    have hfe : importFindExisting db book = some b := by
      simp only [importFindExisting, hi, hfind]
    simp only [importCore, hfe]
  · intro db book oid i b hi hno hfind
    have hfe : importFindExisting db book = some b := by
      simp only [importFindExisting, hi, hno, hfind]
    simp only [importCore, hfe]
  · intro db book oid oid2 i db1 bid hi himport
    cases hfe : importFindExisting db book with
    | some e =>
      rw [show importCore db book oid = (db, .duplicate e.id) by
            simp only [importCore, hfe]] at himport
      cases himport
    | none =>
      have hbyisbn : db.books.find? (fun x => x.isbn == some i) = none := by
        cases hfind : db.books.find? (fun x => x.isbn == some i) with
        | none => rfl
        | some bb =>
          have hcontra : importFindExisting db book = some bb := by
            simp only [importFindExisting, hi, hfind]
          rw [hfe] at hcontra
          cases hcontra
      have hcore := importCore_new db book oid hfe
      rw [hcore] at himport
      injection himport with h1 h2
      injection h2 with h3
      subst h1
      subst h3
      have hnbisbn : (importInsert db book oid).2.isbn = some i := by
        rw [(importInsert_book_fields db book oid).2.2.1, hi]
      have hfind1 : (importInsert db book oid).1.books.find? (fun x => x.isbn == some i) =
          some (importInsert db book oid).2 := by
        rw [importInsert_books db book oid, List.find?_append, hbyisbn]
        simp [hnbisbn]
      have hfe1 : importFindExisting (importInsert db book oid).1 book =
          some (importInsert db book oid).2 := by
        simp only [importFindExisting, hi, hfind1]
      simp only [importCore, hfe1]

/-- Witness for claim C4: re-importing the stored ISBN `9780441013593`
over `dbSample` is a duplicate no-op, and a second import of `recDune13`
right after the first stores nothing new. -/
theorem claim_C4_import_dedup_witness :
    importCore dbSample recDune13 none = (dbSample, .duplicate bookDune.id) ∧
    importCore dbAfterImport recDune13 none =
      (dbAfterImport, .duplicate (importInsert dbEmpty recDune13 none).2.id) :=
  ⟨claim_C4_import_dedup.1 dbSample recDune13 none "9780441013593" bookDune
      (by decide) (by decide),
   claim_C4_import_dedup.2.2.2 dbEmpty recDune13 none none "9780441013593"
      dbAfterImport (importInsert dbEmpty recDune13 none).2.id
      (by decide) (by decide)⟩

/-! ## Claim C9: the genre cap during import -/

/-- `getOrCreateGenre` returns the id of a row with exactly the requested
name, present in the resulting store. -/
theorem getOrCreateGenre_spec (db : Db) (name : String) :
    ∃ g, g ∈ (getOrCreateGenre db name).1.genres ∧
      (getOrCreateGenre db name).2 = g.id ∧ g.name = name := by
  cases hfind : db.genres.find? (fun g => g.name == name) with
  | some g =>
    have hp := List.find?_some hfind
    have hmem := List.mem_of_find?_eq_some hfind
    refine ⟨g, ?_, ?_, by simpa using hp⟩
    · simp [getOrCreateGenre, hfind, hmem]
    · simp [getOrCreateGenre, hfind]
  | none =>
    refine ⟨⟨db.nextGenreId, name, ""⟩, ?_, ?_, rfl⟩
    · simp [getOrCreateGenre, hfind]
    · simp [getOrCreateGenre, hfind]

/-- `getOrCreateGenre` appends at most one row to the genre table. -/
theorem getOrCreateGenre_append (db : Db) (name : String) :
    ∃ suf, (getOrCreateGenre db name).1.genres = db.genres ++ suf ∧ suf.length ≤ 1 := by
  cases hfind : db.genres.find? (fun g => g.name == name) with
  | some g => exact ⟨[], by simp [getOrCreateGenre, hfind], by simp⟩
  | none => exact ⟨[⟨db.nextGenreId, name, ""⟩], by simp [getOrCreateGenre, hfind], by simp⟩

/-- The genre loop appends at most one row per name. -/
theorem getOrCreateGenres_append (names : List String) (db : Db) :
    ∃ suf, (getOrCreateGenres db names).1.genres = db.genres ++ suf ∧
      suf.length ≤ names.length := by
  induction names generalizing db with
  | nil => exact ⟨[], by simp [getOrCreateGenres], by simp⟩
  | cons name rest ih =>
    obtain ⟨s1, h1, hl1⟩ := getOrCreateGenre_append db name
    obtain ⟨s2, h2, hl2⟩ := ih (getOrCreateGenre db name).1
    refine ⟨s1 ++ s2, ?_, ?_⟩
    · simp only [getOrCreateGenres]
      rw [h2, h1, List.append_assoc]
    · simp only [List.length_append, List.length_cons]
      omega

/-- `getOrCreateGenre` reuses an existing name: genre names stay unique. -/
theorem getOrCreateGenre_names_nodup {db : Db} (name : String)
    (h : (db.genres.map Genre.name).Nodup) :
    (((getOrCreateGenre db name).1.genres).map Genre.name).Nodup := by
  cases hfind : db.genres.find? (fun g => g.name == name) with
  | some g => simpa [getOrCreateGenre, hfind] using h
  | none =>
    have hnot : name ∉ db.genres.map Genre.name := by
      intro hmem
      obtain ⟨g, hg, hge⟩ := List.mem_map.mp hmem
      have hfalse := List.find?_eq_none.mp hfind g hg
      simp [hge] at hfalse
    simp only [getOrCreateGenre, hfind, List.map_append, List.map_cons, List.map_nil]
    refine List.nodup_append.mpr ⟨h, by simp, ?_⟩
    intro a ha hb
    simp only [List.mem_singleton] at hb
    subst hb
    exact hnot ha

/-- Genre-name uniqueness is preserved across the whole genre loop. -/
theorem getOrCreateGenres_names_nodup (names : List String) (db : Db)
    (h : (db.genres.map Genre.name).Nodup) :
    (((getOrCreateGenres db names).1.genres).map Genre.name).Nodup := by
  induction names generalizing db with
  | nil => exact h
  | cons name rest ih =>
    simp only [getOrCreateGenres]
    exact ih (getOrCreateGenre db name).1 (getOrCreateGenre_names_nodup name h)

/-- Every id the genre loop returns points at a stored genre row whose
name is one of the requested names. -/
theorem getOrCreateGenres_ids (names : List String) (db : Db) :
    ∀ gid ∈ (getOrCreateGenres db names).2,
      ∃ g, g ∈ (getOrCreateGenres db names).1.genres ∧ g.id = gid ∧ g.name ∈ names := by
  induction names generalizing db with
  | nil =>
    intro gid h
    cases h
  | cons name rest ih =>
    intro gid hmem
    simp only [getOrCreateGenres] at hmem ⊢
    rcases List.mem_cons.mp hmem with rfl | hrest
    · obtain ⟨g, hg, hgid, hgname⟩ := getOrCreateGenre_spec db name
      obtain ⟨suf, hsuf, _⟩ := getOrCreateGenres_append rest (getOrCreateGenre db name).1
      refine ⟨g, ?_, hgid.symm, by simp [hgname]⟩
      rw [hsuf]
      exact List.mem_append_left _ hg
    · obtain ⟨g, hg, hgid, hgname⟩ := ih (getOrCreateGenre db name).1 gid hrest
      exact ⟨g, hg, hgid, List.mem_cons_of_mem _ hgname⟩

/-- Claim C9: the import takes at most the first five subject tags, each
truncated to 50 code points; the inserted book links at most five
distinct genres, every one of which is a stored row named after one of
those tags; genres are get-or-created by exact name so genre names stay
unique, and at most five genre rows are added. -/
theorem claim_C9_genre_cap :
    (∀ book, (importGenreNames book).length ≤ 5) ∧
    (∀ book name, name ∈ importGenreNames book →
      ∃ s, s ∈ book.subjects.take 5 ∧ name = pyTake s 50) ∧
    (∀ db book oid, importFindExisting db book = none →
      ∃ nb, (importCore db book oid).1.books = db.books ++ [nb] ∧
        nb.genres.length ≤ 5 ∧ nb.genres.Nodup ∧
        (∀ gid ∈ nb.genres, ∃ g, g ∈ (importCore db book oid).1.genres ∧
          g.id = gid ∧ g.name ∈ importGenreNames book)) ∧
    (∀ db names, (db.genres.map Genre.name).Nodup →
      (((getOrCreateGenres db names).1.genres).map Genre.name).Nodup) ∧
    (∀ db book oid, importFindExisting db book = none →
      ∃ suf, (importCore db book oid).1.genres = db.genres ++ suf ∧ suf.length ≤ 5) := by
  refine ⟨?_, ?_, ?_, fun db names h => getOrCreateGenres_names_nodup names db h, ?_⟩
  · intro book
    unfold importGenreNames
    rw [List.length_map, List.length_take]
    omega
  · intro book name hmem
    unfold importGenreNames at hmem
    obtain ⟨s, hs, hse⟩ := List.mem_map.mp hmem
    exact ⟨s, hs, hse.symm⟩
  · intro db book oid hexist
    have hcore := importCore_new db book oid hexist
    have hfields := importInsert_book_fields db book oid
    have hlen : (importGenreNames book).length ≤ 5 := by
      unfold importGenreNames
      rw [List.length_map, List.length_take]
      omega
    refine ⟨(importInsert db book oid).2, ?_, ?_, ?_, ?_⟩
    · rw [hcore]
      exact importInsert_books db book oid
    · rw [hfields.2.2.2.2]
      calc ((getOrCreateGenres (getOrCreateAuthor db (importAuthorArgs book).1
              (importAuthorArgs book).2).1 (importGenreNames book)).2.dedup).length
          ≤ (getOrCreateGenres (getOrCreateAuthor db (importAuthorArgs book).1
              (importAuthorArgs book).2).1 (importGenreNames book)).2.length :=
            (List.dedup_sublist _).length_le
        _ = (importGenreNames book).length := getOrCreateGenres_length _ _
        _ ≤ 5 := hlen
    · rw [hfields.2.2.2.2]
      exact List.nodup_dedup _
    · intro gid hgid
      rw [hfields.2.2.2.2] at hgid
      have hgid' := List.mem_dedup.mp hgid
      obtain ⟨g, hg, hgeq, hgname⟩ := getOrCreateGenres_ids (importGenreNames book)
        (getOrCreateAuthor db (importAuthorArgs book).1 (importAuthorArgs book).2).1 gid hgid'
      refine ⟨g, ?_, hgeq, hgname⟩
      rw [hcore]
      exact hg
  · intro db book oid hexist
    have hcore := importCore_new db book oid hexist
    have haf := getOrCreateAuthor_frame db (importAuthorArgs book).1 (importAuthorArgs book).2
    obtain ⟨suf, hsuf, hsuflen⟩ := getOrCreateGenres_append (importGenreNames book)
      (getOrCreateAuthor db (importAuthorArgs book).1 (importAuthorArgs book).2).1
    have hlen : (importGenreNames book).length ≤ 5 := by
      unfold importGenreNames
      rw [List.length_map, List.length_take]
      omega
    refine ⟨suf, ?_, le_trans hsuflen hlen⟩
    rw [hcore]
    show (getOrCreateGenres (getOrCreateAuthor db (importAuthorArgs book).1
      (importAuthorArgs book).2).1 (importGenreNames book)).1.genres = db.genres ++ suf
    rw [hsuf, haf.2.1]

/-- Witness for claim C9: importing the eight-subject record over the
empty store links at most five genres on the inserted row. -/
theorem claim_C9_genre_cap_witness :
    ∃ nb, (importCore dbEmpty recEightSubjects none).1.books = dbEmpty.books ++ [nb] ∧
      nb.genres.length ≤ 5 ∧ nb.genres.Nodup ∧
      (∀ gid ∈ nb.genres, ∃ g, g ∈ (importCore dbEmpty recEightSubjects none).1.genres ∧
        g.id = gid ∧ g.name ∈ importGenreNames recEightSubjects) :=
  claim_C9_genre_cap.2.2.1 dbEmpty recEightSubjects none (by decide)

/-! ## Claim C1: the add-books loop -/

/-- The add loop never changes the list of primary keys. -/
theorem addBooksLoop_map_id (user : Nat) (ids : List Nat) :
    ∀ (db : Db) (n : Nat) (na : List String),
      (addBooksLoop user ids db n na).1.books.map Book.id = db.books.map Book.id := by
  induction ids with
  | nil =>
    intro db n na
    rfl
  | cons bid rest ih =>
    intro db n na
    cases hget : getBook db bid with
    | none => simp [addBooksLoop, hget]
    | some book =>
      simp only [addBooksLoop, hget]
      by_cases hown : book.owner = none
      · rw [if_pos hown, ih]
        exact saveBook_map_id db _
      · rw [if_neg hown]
        exact ih db n (na ++ [book.title])

/-- The add loop preserves well-formedness of the book table. -/
theorem addBooksLoop_wf {user : Nat} {ids : List Nat} {db : Db} {n : Nat}
    {na : List String} (hwf : BooksWF db) :
    BooksWF (addBooksLoop user ids db n na).1 := by
  unfold BooksWF
  rw [addBooksLoop_map_id]
  exact hwf

/-- Titles already collected stay in the unavailable list on success. -/
theorem addBooksLoop_na_mono (user : Nat) (ids : List Nat) :
    ∀ (db : Db) (n : Nat) (na : List String) (n' : Nat) (na' : List String),
      (addBooksLoop user ids db n na).2 = some (n', na') →
      ∀ t ∈ na, t ∈ na' := by
  induction ids with
  | nil =>
    intro db n na n' na' h t ht
    cases h
    exact ht
  | cons bid rest ih =>
    intro db n na n' na' h t ht
    cases hget : getBook db bid with
    | none =>
      simp only [addBooksLoop, hget] at h
      cases h
    | some book =>
      simp only [addBooksLoop, hget] at h
      by_cases hown : book.owner = none
      · rw [if_pos hown] at h
        exact ih _ _ _ _ _ h t ht
      · rw [if_neg hown] at h
        exact ih _ _ _ _ _ h t (List.mem_append_left _ ht)

/-- Success bookkeeping: added plus unavailable counts the submitted ids. -/
theorem addBooksLoop_count (user : Nat) (ids : List Nat) :
    ∀ (db : Db) (n : Nat) (na : List String) (n' : Nat) (na' : List String),
      (addBooksLoop user ids db n na).2 = some (n', na') →
      n' + na'.length = n + na.length + ids.length := by
  induction ids with
  | nil =>
    intro db n na n' na' h
    cases h
    simp
  | cons bid rest ih =>
    intro db n na n' na' h
    cases hget : getBook db bid with
    | none =>
      simp only [addBooksLoop, hget] at h
      cases h
    | some book =>
      simp only [addBooksLoop, hget] at h
      by_cases hown : book.owner = none
      · rw [if_pos hown] at h
        have hc := ih _ _ _ _ _ h
        simp only [List.length_cons]
        omega
      · rw [if_neg hown] at h
        have hc := ih _ _ _ _ _ h
        simp only [List.length_append, List.length_cons, List.length_nil] at hc
        simp only [List.length_cons]
        omega

/-- When every submitted id resolves, the loop succeeds. -/
theorem addBooksLoop_success (user : Nat) (ids : List Nat) :
    ∀ (db : Db) (n : Nat) (na : List String),
      (∀ i ∈ ids, i ∈ db.books.map Book.id) →
      ∃ n' na', (addBooksLoop user ids db n na).2 = some (n', na') := by
  induction ids with
  | nil =>
    intro db n na _
    exact ⟨n, na, rfl⟩
  | cons bid rest ih =>
    intro db n na hex
    have hbid : (getBook db bid).isSome := by
      rw [getBook_isSome_iff]
      exact hex bid (List.mem_cons_self _ _)
    cases hget : getBook db bid with
    | none =>
      rw [hget] at hbid
      cases hbid
    | some book =>
      simp only [addBooksLoop, hget]
      by_cases hown : book.owner = none
      · rw [if_pos hown]
        apply ih
        intro i hi
        rw [saveBook_map_id]
        exact hex i (List.mem_cons_of_mem _ hi)
      · rw [if_neg hown]
        apply ih
        intro i hi
        exact hex i (List.mem_cons_of_mem _ hi)

/-- A row owned by anyone at call time is never modified by the loop, and
when its id is submitted its title is reported unavailable. -/
theorem addBooksLoop_owned_stable (user : Nat) (ids : List Nat) :
    ∀ (db : Db) (n : Nat) (na : List String) (b : Book) (v : Nat),
      BooksWF db → b ∈ db.books → b.owner = some v →
      b ∈ (addBooksLoop user ids db n na).1.books ∧
      (∀ n' na', (addBooksLoop user ids db n na).2 = some (n', na') →
        b.id ∈ ids → b.title ∈ na') := by
  induction ids with
  | nil =>
    intro db n na b v _ hb _
    refine ⟨hb, ?_⟩
    intro n' na' _ hin
    cases hin
  | cons bid rest ih =>
    intro db n na b v hwf hb hown
    cases hget : getBook db bid with
    | none =>
      simp only [addBooksLoop, hget]
      refine ⟨hb, ?_⟩
      intro n' na' h
      cases h
    | some book =>
      simp only [addBooksLoop, hget]
      have hget' : db.books.find? (fun x => x.id == bid) = some book := hget
      have hbookmem : book ∈ db.books := List.mem_of_find?_eq_some hget'
      have hbookid : book.id = bid := by simpa using List.find?_some hget'
      by_cases hbown : book.owner = none
      · rw [if_pos hbown]
        have hbne : b.id ≠ book.id := by
          intro he
          have hbb : b = book := List.inj_on_of_nodup_map hwf hb hbookmem he
          rw [hbb, hbown] at hown
          cases hown
        have hbmem' : b ∈ (saveBook db { book with owner := some user }).books :=
          mem_saveBook_of_id_ne _ hb hbne
        have hwf' : BooksWF (saveBook db { book with owner := some user }) :=
          booksWF_saveBook _ hwf
        obtain ⟨hmem2, hrep⟩ := ih _ (n + 1) na b v hwf' hbmem' hown
        refine ⟨hmem2, ?_⟩
        intro n' na' hres hin
        rcases List.mem_cons.mp hin with heq | hin'
        · exact absurd (heq.trans hbookid.symm) hbne
        · exact hrep n' na' hres hin'
      · rw [if_neg hbown]
        obtain ⟨hmem2, hrep⟩ := ih db n (na ++ [book.title]) b v hwf hb hown
        refine ⟨hmem2, ?_⟩
        intro n' na' hres hin
        rcases List.mem_cons.mp hin with heq | hin'
        · have hbb : b = book :=
            List.inj_on_of_nodup_map hwf hb hbookmem (heq.trans hbookid.symm)
          have htin : b.title ∈ na ++ [book.title] := by
            rw [hbb]
            exact List.mem_append_right _ (List.mem_singleton.mpr rfl)
          exact addBooksLoop_na_mono user rest _ _ _ _ _ hres b.title htin
        · exact hrep n' na' hres hin'

/-- A row unowned at call time whose id is submitted ends up owned by the
target user, provided all submitted ids resolve. -/
theorem addBooksLoop_claims (user : Nat) (ids : List Nat) :
    ∀ (db : Db) (n : Nat) (na : List String) (b : Book),
      BooksWF db → b ∈ db.books → b.owner = none → b.id ∈ ids →
      (∀ i ∈ ids, i ∈ db.books.map Book.id) →
      { b with owner := some user } ∈ (addBooksLoop user ids db n na).1.books := by
  induction ids with
  | nil =>
    intro db n na b _ _ _ hin _
    cases hin
  | cons bid rest ih =>
    intro db n na b hwf hb hown hin hex
    have hbid : (getBook db bid).isSome := by
      rw [getBook_isSome_iff]
      exact hex bid (List.mem_cons_self _ _)
    cases hget : getBook db bid with
    | none =>
      rw [hget] at hbid
      cases hbid
    | some book =>
      simp only [addBooksLoop, hget]
      have hget' : db.books.find? (fun x => x.id == bid) = some book := hget
      have hbookmem : book ∈ db.books := List.mem_of_find?_eq_some hget'
      have hbookid : book.id = bid := by simpa using List.find?_some hget'
      by_cases heq : b.id = bid
      · have hgb : getBook db b.id = some b := getBook_eq_of_mem hwf hb
        have hbb : book = b := by
          rw [heq, hget] at hgb
          cases hgb
          rfl
        rw [hbb, if_pos hown]
        have hcmem : { b with owner := some user } ∈
            (saveBook db { b with owner := some user }).books :=
          mem_saveBook_self _ hb rfl
        have hwf' : BooksWF (saveBook db { b with owner := some user }) :=
          booksWF_saveBook _ hwf
        exact (addBooksLoop_owned_stable user rest _ (n + 1) na _ user hwf' hcmem rfl).1
      · have hin' : b.id ∈ rest := by
          rcases List.mem_cons.mp hin with h | h
          · exact absurd h heq
          · exact h
        by_cases hbown : book.owner = none
        · rw [if_pos hbown]
          have hbne : b.id ≠ book.id := by
            rw [hbookid]
            exact heq
          have hbmem' : b ∈ (saveBook db { book with owner := some user }).books :=
            mem_saveBook_of_id_ne _ hb hbne
          have hwf' : BooksWF (saveBook db { book with owner := some user }) :=
            booksWF_saveBook _ hwf
          apply ih _ (n + 1) na b hwf' hbmem' hown hin'
          intro i hi
          rw [saveBook_map_id]
          exact hex i (List.mem_cons_of_mem _ hi)
        · rw [if_neg hbown]
          apply ih db n (na ++ [book.title]) b hwf hb hown hin'
          intro i hi
          exact hex i (List.mem_cons_of_mem _ hi)

/-- A row whose id was not submitted is untouched. -/
theorem addBooksLoop_untouched (user : Nat) (ids : List Nat) :
    ∀ (db : Db) (n : Nat) (na : List String) (b : Book),
      b ∈ db.books → b.id ∉ ids → b ∈ (addBooksLoop user ids db n na).1.books := by
  induction ids with
  | nil =>
    intro db n na b hb _
    exact hb
  | cons bid rest ih =>
    intro db n na b hb hnin
    have hne : b.id ≠ bid := fun h => hnin (h ▸ List.mem_cons_self _ _)
    have hnin' : b.id ∉ rest := fun h => hnin (List.mem_cons_of_mem _ h)
    cases hget : getBook db bid with
    | none =>
      simp only [addBooksLoop, hget]
      exact hb
    | some book =>
      simp only [addBooksLoop, hget]
      have hget' : db.books.find? (fun x => x.id == bid) = some book := hget
      have hbookid : book.id = bid := by simpa using List.find?_some hget'
      by_cases hbown : book.owner = none
      · rw [if_pos hbown]
        apply ih
        · exact mem_saveBook_of_id_ne _ hb (by rw [hbookid]; exact hne)
        · exact hnin'
      · rw [if_neg hbown]
        exact ih db n _ b hb hnin'

/-- Claim C1: `add_books_to_library` re-checks each submitted book's
owner at execution time and assigns the target user only when the owner
is null; a book owned at call time is left untouched and its title is
reported in the unavailable list; books added plus titles reported equals
the number of submitted ids; and over two sequential submissions racing
on one unowned book the first wins while the second only gets the title
reported — ownership is exclusive. -/
theorem claim_C1_add_books :
    (∀ db user ids, BooksWF db → (∀ i ∈ ids, i ∈ db.books.map Book.id) →
      ∃ db' n na, add_books_to_library db user ids = (db', some (n, na)) ∧
        n + na.length = ids.length ∧
        (∀ b ∈ db.books, ∀ v, b.owner = some v →
          getBook db' b.id = some b ∧ (b.id ∈ ids → b.title ∈ na)) ∧
        (∀ b ∈ db.books, b.owner = none → b.id ∈ ids →
          getBook db' b.id = some { b with owner := some user }) ∧
        (∀ b ∈ db.books, b.id ∉ ids → getBook db' b.id = some b)) ∧
    (∀ db u1 u2 b, BooksWF db → b ∈ db.books → b.owner = none →
      ∃ db1, add_books_to_library db u1 [b.id] = (db1, some (1, [])) ∧
        add_books_to_library db1 u2 [b.id] = (db1, some (0, [b.title]))) := by
  constructor
  · intro db user ids hwf hex
    obtain ⟨n, na, hsucc⟩ := addBooksLoop_success user ids db 0 [] hex
    have hwf' : BooksWF (addBooksLoop user ids db 0 []).1 := addBooksLoop_wf hwf
    refine ⟨(addBooksLoop user ids db 0 []).1, n, na, ?_, ?_, ?_, ?_, ?_⟩
    · show addBooksLoop user ids db 0 [] = _
      exact Prod.ext rfl hsucc
    · have hc := addBooksLoop_count user ids db 0 [] n na hsucc
      simpa using hc
    · intro b hb v hv
      obtain ⟨hmem, hrep⟩ := addBooksLoop_owned_stable user ids db 0 [] b v hwf hb hv
      exact ⟨getBook_eq_of_mem hwf' hmem, hrep n na hsucc⟩
    · intro b hb hown hin
      exact getBook_eq_of_mem hwf'
        (addBooksLoop_claims user ids db 0 [] b hwf hb hown hin hex)
    · intro b hb hnin
      exact getBook_eq_of_mem hwf' (addBooksLoop_untouched user ids db 0 [] b hb hnin)
  · intro db u1 u2 b hwf hb hown
    have hget1 : getBook db b.id = some b := getBook_eq_of_mem hwf hb
    refine ⟨saveBook db { b with owner := some u1 }, ?_, ?_⟩
    · show addBooksLoop u1 [b.id] db 0 [] = _
      simp only [addBooksLoop, hget1]
      rw [if_pos hown]
    · have hcmem : { b with owner := some u1 } ∈
          (saveBook db { b with owner := some u1 }).books :=
        mem_saveBook_self _ hb rfl
      have hwf1 : BooksWF (saveBook db { b with owner := some u1 }) :=
        booksWF_saveBook _ hwf
      have hget2 : getBook (saveBook db { b with owner := some u1 }) b.id =
          some { b with owner := some u1 } :=
        getBook_eq_of_mem hwf1 hcmem
      show addBooksLoop u2 [b.id] (saveBook db { b with owner := some u1 }) 0 [] = _
      simp only [addBooksLoop, hget2]
      rw [if_neg (by simp)]
      rfl

/-- Witness for claim C1: user 1 claims the unowned `bookDune`; user 2's
identical submission right after transfers nothing and reports the title. -/
theorem claim_C1_add_books_witness :
    ∃ db1, add_books_to_library dbSample 1 [bookDune.id] = (db1, some (1, [])) ∧
      add_books_to_library db1 2 [bookDune.id] = (db1, some (0, [bookDune.title])) :=
  claim_C1_add_books.2 dbSample 1 2 bookDune (by decide) (by decide) (by decide)

/-! ## Claim C2: the remove-books loop -/

/-- Unpacking the remove loop's filtered fetch
`get_object_or_404(Book, id=book_id, owner=user)`. -/
theorem removeBooksLoop_find_props {db : Db} {user bid : Nat} {book : Book}
    (h : db.books.find? (fun x => x.id == bid && x.owner == some user) = some book) :
    book ∈ db.books ∧ book.id = bid ∧ book.owner = some user := by
  have hp := List.find?_some h
  have hmem := List.mem_of_find?_eq_some h
  simp only [Bool.and_eq_true, beq_iff_eq] at hp
  exact ⟨hmem, hp.1, hp.2⟩

/-- The remove loop never changes the list of primary keys. -/
theorem removeBooksLoop_map_id (user : Nat) (ids : List Nat) :
    ∀ db : Db, (removeBooksLoop user ids db).1.books.map Book.id = db.books.map Book.id := by
  induction ids with
  | nil =>
    intro db
    rfl
  | cons bid rest ih =>
    intro db
    cases hfind : db.books.find? (fun x => x.id == bid && x.owner == some user) with
    | none => simp [removeBooksLoop, hfind]
    | some book =>
      simp only [removeBooksLoop, hfind]
      rw [ih]
      exact saveBook_map_id db _

/-- The remove loop preserves well-formedness of the book table. -/
theorem removeBooksLoop_wf {user : Nat} {ids : List Nat} {db : Db} (hwf : BooksWF db) :
    BooksWF (removeBooksLoop user ids db).1 := by
  unfold BooksWF
  rw [removeBooksLoop_map_id]
  exact hwf

/-- A row not owned by the target user is never modified by the remove
loop, whether the request succeeds or 404s. -/
theorem removeBooksLoop_other_stable (user : Nat) (ids : List Nat) :
    ∀ (db : Db) (b : Book), BooksWF db → b ∈ db.books → b.owner ≠ some user →
      b ∈ (removeBooksLoop user ids db).1.books := by
  induction ids with
  | nil =>
    intro db b _ hb _
    exact hb
  | cons bid rest ih =>
    intro db b hwf hb hbown
    cases hfind : db.books.find? (fun x => x.id == bid && x.owner == some user) with
    | none =>
      simp only [removeBooksLoop, hfind]
      exact hb
    | some book =>
      simp only [removeBooksLoop, hfind]
      obtain ⟨hmem, _, hown⟩ := removeBooksLoop_find_props hfind
      have hne : b.id ≠ book.id := by
        intro he
        have hbb : b = book := List.inj_on_of_nodup_map hwf hb hmem he
        rw [hbb] at hbown
        exact hbown hown
      exact ih _ b (booksWF_saveBook _ hwf) (mem_saveBook_of_id_ne _ hb hne) hbown

/-- Every row either survives the remove loop unchanged or was owned by
the target user, had its id submitted, and ends up unowned. -/
theorem removeBooksLoop_changes (user : Nat) (ids : List Nat) :
    ∀ (db : Db) (b : Book), BooksWF db → b ∈ db.books →
      b ∈ (removeBooksLoop user ids db).1.books ∨
      (b.owner = some user ∧ b.id ∈ ids ∧
        { b with owner := none } ∈ (removeBooksLoop user ids db).1.books) := by
  induction ids with
  | nil =>
    intro db b _ hb
    exact Or.inl hb
  | cons bid rest ih =>
    intro db b hwf hb
    cases hfind : db.books.find? (fun x => x.id == bid && x.owner == some user) with
    | none =>
      simp only [removeBooksLoop, hfind]
      exact Or.inl hb
    | some book =>
      simp only [removeBooksLoop, hfind]
      obtain ⟨hmem, hid, hown⟩ := removeBooksLoop_find_props hfind
      by_cases heq : b.id = book.id
      · have hbb : b = book := List.inj_on_of_nodup_map hwf hb hmem heq
        right
        refine ⟨hbb ▸ hown, ?_, ?_⟩
        · rw [hbb, hid]
          exact List.mem_cons_self _ _
        · have hc : { b with owner := none } ∈
              (saveBook db { book with owner := none }).books := by
            rw [hbb]
            exact mem_saveBook_self _ hmem rfl
          exact removeBooksLoop_other_stable user rest _ _ (booksWF_saveBook _ hwf) hc
            (by simp)
      · have hb' : b ∈ (saveBook db { book with owner := none }).books :=
          mem_saveBook_of_id_ne _ hb heq
        rcases ih _ b (booksWF_saveBook _ hwf) hb' with h | ⟨h1, h2, h3⟩
        · exact Or.inl h
        · exact Or.inr ⟨h1, List.mem_cons_of_mem _ h2, h3⟩

/-- On success, a submitted row owned by the target user is cleared. -/
theorem removeBooksLoop_cleared (user : Nat) (ids : List Nat) :
    ∀ (db : Db) (b : Book), BooksWF db → b ∈ db.books → b.owner = some user →
      b.id ∈ ids → (removeBooksLoop user ids db).2 = some () →
      { b with owner := none } ∈ (removeBooksLoop user ids db).1.books := by
  induction ids with
  | nil =>
    intro db b _ _ _ hin _
    cases hin
  | cons bid rest ih =>
    intro db b hwf hb hown hin hsucc
    cases hfind : db.books.find? (fun x => x.id == bid && x.owner == some user) with
    | none =>
      simp only [removeBooksLoop, hfind] at hsucc
      cases hsucc
    | some book =>
      simp only [removeBooksLoop, hfind] at hsucc ⊢
      obtain ⟨hmem, hid, _⟩ := removeBooksLoop_find_props hfind
      by_cases heq : b.id = book.id
      · have hbb : b = book := List.inj_on_of_nodup_map hwf hb hmem heq
        have hc : { b with owner := none } ∈
            (saveBook db { book with owner := none }).books := by
          rw [hbb]
          exact mem_saveBook_self _ hmem rfl
        exact removeBooksLoop_other_stable user rest _ _ (booksWF_saveBook _ hwf) hc
          (by simp)
      · have hin' : b.id ∈ rest := by
          rcases List.mem_cons.mp hin with h | h
          · exact absurd (h.trans hid.symm) heq
          · exact h
        exact ih _ b (booksWF_saveBook _ hwf) (mem_saveBook_of_id_ne _ hb heq)
          hown hin' hsucc

/-- With distinct submitted ids, the remove loop succeeds exactly when
every submitted id names a book currently owned by the target user. -/
theorem removeBooksLoop_success_iff (user : Nat) (ids : List Nat) :
    ∀ db : Db, BooksWF db → ids.Nodup →
      ((removeBooksLoop user ids db).2 = some () ↔
        ∀ i ∈ ids, ∃ b, b ∈ db.books ∧ b.id = i ∧ b.owner = some user) := by
  induction ids with
  | nil =>
    intro db _ _
    constructor
    · intro _ i hi
      cases hi
    · intro _
      rfl
  | cons bid rest ih =>
    intro db hwf hnodup
    have hnd := List.nodup_cons.mp hnodup
    cases hfind : db.books.find? (fun x => x.id == bid && x.owner == some user) with
    | none =>
      simp only [removeBooksLoop, hfind]
      constructor
      · intro h
        cases h
      · intro hall
        obtain ⟨b, hbmem, hbid, hbown⟩ := hall bid (List.mem_cons_self _ _)
        have hfalse := List.find?_eq_none.mp hfind b hbmem
        simp [hbid, hbown] at hfalse
    | some book =>
      simp only [removeBooksLoop, hfind]
      obtain ⟨hmem, hid, hown⟩ := removeBooksLoop_find_props hfind
      rw [ih _ (booksWF_saveBook _ hwf) hnd.2]
      constructor
      · intro hall i hi
        rcases List.mem_cons.mp hi with rfl | hi'
        · exact ⟨book, hmem, hid, hown⟩
        · obtain ⟨b, hbmem, hbid, hbown⟩ := hall i hi'
          rcases mem_saveBook_cases hbmem with rfl | hbmem'
          · simp at hbown
          · exact ⟨b, hbmem', hbid, hbown⟩
      · intro hall i hi
        obtain ⟨b, hbmem, hbid, hbown⟩ := hall i (List.mem_cons_of_mem _ hi)
        refine ⟨b, ?_, hbid, hbown⟩
        apply mem_saveBook_of_id_ne _ hbmem
        intro hc
        apply hnd.1
        have hib : i = bid := by
          rw [← hbid, hc, hid]
        rw [← hib]
        exact hi

/-- Counterexample for claim C2 as stated: submitting the id of `bookOwned`
(owned by user 2) to `remove_books_from_library` targeting user 1 raises
`Http404` — the outcome is `none`, not a silent no-op — though the store
is indeed left unchanged. -/
theorem claim_C2_counterexample :
    getBook dbSample 2 = some bookOwned ∧ bookOwned.owner = some 2 ∧
    (remove_books_from_library dbSample 1 [2]).2 = none ∧
    (remove_books_from_library dbSample 1 [2]).1 = dbSample := by
  refine ⟨by decide, by decide, by decide, by decide⟩

/-- Claim C2 (amended): the remove loop clears ownership exactly of the
submitted books whose owner equals the target user at execution time;
rows not owned by the target — another user's or unowned — are never
modified; with distinct ids the request succeeds iff every submitted id
names a book owned by the target; and a non-matching id makes
`get_object_or_404` raise `Http404` (outcome `none`) instead of being
silently ignored. -/
theorem claim_C2_remove_books :
    (∀ db user ids, BooksWF db →
      ∀ b ∈ db.books, b.owner ≠ some user →
        getBook (remove_books_from_library db user ids).1 b.id = some b) ∧
    (∀ db user ids, BooksWF db →
      ∀ b ∈ db.books,
        getBook (remove_books_from_library db user ids).1 b.id = some b ∨
        (b.owner = some user ∧ b.id ∈ ids ∧
          getBook (remove_books_from_library db user ids).1 b.id =
            some { b with owner := none })) ∧
    (∀ db user ids, BooksWF db → ids.Nodup →
      ((remove_books_from_library db user ids).2 = some () ↔
        ∀ i ∈ ids, ∃ b, b ∈ db.books ∧ b.id = i ∧ b.owner = some user)) ∧
    (∀ db user ids b, BooksWF db → b ∈ db.books → b.owner = some user → b.id ∈ ids →
      (remove_books_from_library db user ids).2 = some () →
      getBook (remove_books_from_library db user ids).1 b.id =
        some { b with owner := none }) ∧
    (∀ db user ids i, BooksWF db → ids.Nodup → i ∈ ids →
      (∀ b ∈ db.books, b.id = i → b.owner ≠ some user) →
      (remove_books_from_library db user ids).2 = none) := by
  refine ⟨?_, ?_, ?_, ?_, ?_⟩
  · intro db user ids hwf b hb hbown
    exact getBook_eq_of_mem (removeBooksLoop_wf hwf)
      (removeBooksLoop_other_stable user ids db b hwf hb hbown)
  · intro db user ids hwf b hb
    rcases removeBooksLoop_changes user ids db b hwf hb with h | ⟨h1, h2, h3⟩
    · exact Or.inl (getBook_eq_of_mem (removeBooksLoop_wf hwf) h)
    · exact Or.inr ⟨h1, h2, getBook_eq_of_mem (removeBooksLoop_wf hwf) h3⟩
  · intro db user ids hwf hnodup
    exact removeBooksLoop_success_iff user ids db hwf hnodup
  · intro db user ids b hwf hb hown hin hsucc
    exact getBook_eq_of_mem (removeBooksLoop_wf hwf)
      (removeBooksLoop_cleared user ids db b hwf hb hown hin hsucc)
  · intro db user ids i hwf hnodup hi hnone
    cases hout : (remove_books_from_library db user ids).2 with
    | none => rfl
    | some u =>
      cases u
      have hall := (removeBooksLoop_success_iff user ids db hwf hnodup).mp hout
      obtain ⟨b, hbmem, hbid, hbown⟩ := hall i hi
      exact absurd hbown (hnone b hbmem hbid)

/-- Witness for claim C2's amended theorem on `dbSample`: removing book 2
as its owner (user 2) clears it and leaves book 1 untouched. -/
theorem claim_C2_remove_books_witness :
    getBook (remove_books_from_library dbSample 2 [2]).1 2 =
      some { bookOwned with owner := none } ∧
    getBook (remove_books_from_library dbSample 2 [2]).1 1 = some bookDune :=
  ⟨claim_C2_remove_books.2.2.2.1 dbSample 2 [2] bookOwned (by decide) (by decide)
      (by decide) (by decide) (by decide),
   claim_C2_remove_books.1 dbSample 2 [2] (by decide) bookDune (by decide) (by decide)⟩

/-! ## Claim C3: transaction boundaries -/

/-- Splitting the add loop at a list boundary: the suffix continues from
the state the prefix committed, and an aborted prefix is final. -/
theorem addBooksLoop_append (user : Nat) (l1 l2 : List Nat) :
    ∀ (db : Db) (n : Nat) (na : List String),
      addBooksLoop user (l1 ++ l2) db n na =
        (match addBooksLoop user l1 db n na with
         | (db1, some (n1, na1)) => addBooksLoop user l2 db1 n1 na1
         | (db1, none) => (db1, none)) := by
  induction l1 with
  | nil =>
    intro db n na
    rfl
  | cons bid rest ih =>
    intro db n na
    cases hget : getBook db bid with
    | none => simp only [List.cons_append, addBooksLoop, hget]
    | some book =>
      simp only [List.cons_append, addBooksLoop, hget]
      by_cases hown : book.owner = none
      · rw [if_pos hown, if_pos hown]
        exact ih _ _ _
      · rw [if_neg hown, if_neg hown]
        exact ih _ _ _

/-- Splitting the remove loop at a list boundary. -/
theorem removeBooksLoop_append (user : Nat) (l1 l2 : List Nat) :
    ∀ db : Db,
      removeBooksLoop user (l1 ++ l2) db =
        (match removeBooksLoop user l1 db with
         | (db1, some _) => removeBooksLoop user l2 db1
         | (db1, none) => (db1, none)) := by
  induction l1 with
  | nil =>
    intro db
    rfl
  | cons bid rest ih =>
    intro db
    cases hfind : db.books.find? (fun x => x.id == bid && x.owner == some user) with
    | none => simp only [List.cons_append, removeBooksLoop, hfind]
    | some book =>
      simp only [List.cons_append, removeBooksLoop, hfind]
      exact ih _

/-- `importCore` either reports a duplicate without touching the store or
runs the insert branch. -/
theorem importCore_cases (db : Db) (book : ExtBook) (oid : Option Nat) :
    (∃ e, importFindExisting db book = some e ∧
      importCore db book oid = (db, .duplicate e.id)) ∨
    (importFindExisting db book = none ∧ importCore db book oid =
      ((importInsert db book oid).1, .imported (importInsert db book oid).2.id)) := by
  cases hfe : importFindExisting db book with
  | some e => exact Or.inl ⟨e, rfl, by simp only [importCore, hfe]⟩
  | none => exact Or.inr ⟨rfl, importCore_new db book oid hfe⟩

/-- Counterexample for claim C3 as stated: `add_books_to_library` is not
wrapped in `transaction.atomic` — submitting `[1, 99]` against
`dbSample` (id 99 does not exist) raises `Http404` on the second id, yet
the first transfer (book 1 to user 7) is already committed: a partial
write is observable after a failed operation. -/
theorem claim_C3_counterexample :
    (add_books_to_library dbSample 7 [1, 99]).2 = none ∧
    getBook (add_books_to_library dbSample 7 [1, 99]).1 1 =
      some { bookDune with owner := some 7 } ∧
    bookDune.owner = none := by
  refine ⟨by decide, by decide, by decide⟩

/-- Claim C3 (amended): only `import_external_book` carries
`@transaction.atomic` — its error and duplicate paths return the store
unchanged; `add_books_to_library` and `remove_books_from_library` commit
every `book.save()` individually, so when an id fails to resolve midway
through the list the operation aborts with exactly the earlier writes
committed. -/
theorem claim_C3_transaction_boundaries :
    (∀ db isbn t a oid lookup,
      ((import_external_book db isbn t a oid lookup).2 = .errorNoTitle ∨
       (import_external_book db isbn t a oid lookup).2 = .errorNotFound ∨
       (∃ bid, (import_external_book db isbn t a oid lookup).2 = .duplicate bid)) →
      (import_external_book db isbn t a oid lookup).1 = db) ∧
    (∀ user ids1 bid ids2 db db1 n1 na1,
      add_books_to_library db user ids1 = (db1, some (n1, na1)) →
      getBook db1 bid = none →
      add_books_to_library db user (ids1 ++ bid :: ids2) = (db1, none)) ∧
    (∀ user ids1 bid ids2 db db1,
      remove_books_from_library db user ids1 = (db1, some ()) →
      db1.books.find? (fun x => x.id == bid && x.owner == some user) = none →
      remove_books_from_library db user (ids1 ++ bid :: ids2) = (db1, none)) := by
  refine ⟨?_, ?_, ?_⟩
  · intro db isbn t a oid lookup hout
    simp only [import_external_book] at hout ⊢
    by_cases hn : isbn = "no-isbn"
    · rw [if_pos hn] at hout ⊢
      by_cases ht : pyStrip t = ""
      · rw [if_pos ht] at hout ⊢
      · rw [if_neg ht] at hout ⊢
        rcases importCore_cases db
            ⟨pyStrip t,
             if pyStrip a ≠ "" then [pyStrip a] else ["Autor Desconocido"],
             none, none, none, []⟩ oid with ⟨e, _, hcore⟩ | ⟨_, hcore⟩
        · rw [hcore]
        · rw [hcore] at hout
          rcases hout with h | h | ⟨bid, h⟩ <;> simp at h
    · rw [if_neg hn] at hout ⊢
      cases hl : lookup isbn with
      | none => rfl
      | some book =>
        rw [hl] at hout
        have hout' : (importCore db book oid).2 = ImportOutcome.errorNoTitle ∨
            (importCore db book oid).2 = ImportOutcome.errorNotFound ∨
            ∃ bid, (importCore db book oid).2 = ImportOutcome.duplicate bid := hout
        show (importCore db book oid).1 = db
        rcases importCore_cases db book oid with ⟨e, _, hcore⟩ | ⟨_, hcore⟩
        · rw [hcore]
        · rw [hcore] at hout'
          rcases hout' with h | h | ⟨bid, h⟩ <;> simp at h
  · intro user ids1 bid ids2 db db1 n1 na1 h1 hmiss
    show addBooksLoop user (ids1 ++ bid :: ids2) db 0 [] = (db1, none)
    rw [addBooksLoop_append]
    have h1' : addBooksLoop user ids1 db 0 [] = (db1, some (n1, na1)) := h1
    rw [h1']
    simp only [addBooksLoop, hmiss]
  · intro user ids1 bid ids2 db db1 h1 hmiss
    show removeBooksLoop user (ids1 ++ bid :: ids2) db = (db1, none)
    rw [removeBooksLoop_append]
    have h1' : removeBooksLoop user ids1 db = (db1, some ()) := h1
    rw [h1']
    simp only [removeBooksLoop, hmiss]

/-- Witness for the amended claim C3: the concrete aborted submission
`[1, 99]` commits exactly the transfer of the prefix `[1]`, and an
empty-title import leaves the store untouched. -/
theorem claim_C3_transaction_boundaries_witness :
    add_books_to_library dbSample 7 ([1] ++ 99 :: []) =
      ((add_books_to_library dbSample 7 [1]).1, none) ∧
    (import_external_book dbSample "no-isbn" "" "Frank Herbert" none
      (fun _ => none)).1 = dbSample :=
  ⟨claim_C3_transaction_boundaries.2.1 7 [1] 99 [] dbSample
      (add_books_to_library dbSample 7 [1]).1 1 [] (by decide) (by decide),
   claim_C3_transaction_boundaries.1 dbSample "no-isbn" "" "Frank Herbert" none
      (fun _ => none) (Or.inl (by decide))⟩

end MigrationsPj
